/-
Verification of the DIMSE message codec and DUL provider of pynetdicom2.

The definitions below are a shallow embedding of the Python sources
`netdicom2/dimsemessages.py` and `netdicom2/dulprovider.py` (the `netdicom2`
package is the authoritative copy; the legacy `source/netdicom` copy is only
consulted where noted).  Byte strings are modelled as `List Nat`, Python
integers as `Int`/`Nat`, and fallible Python code as `Option`/`Except`.
-/
import Mathlib

set_option autoImplicit false

/-! ## Fragmenter (`dimsemessages.fragment`)

Python source:
```
def fragment(max_pdu_length, str_):
    s = str_
    fragments = []
    maxsize = max_pdu_length - 6
    while 1:
        fragments.append(s[:maxsize])
        s = s[maxsize:]
        if len(s) <= maxsize:
            if len(s) > 0:
                fragments.append(s)
            return fragments
```
`maxsize` may be zero or negative, in which case Python slicing semantics
(`s[:k]` and `s[k:]` for negative `k` count from the end, clamped at 0)
matter, so the slices are modelled exactly and the unbounded `while` loop is
modelled with explicit fuel. -/

/-- Python slice `s[:k]` for an arbitrary integer `k`:
`s[:k] = s.take k` when `k ≥ 0`, and counts from the end (clamped at 0)
when `k < 0`. -/
def pySliceTo (s : List Nat) (k : Int) : List Nat :=
  if 0 ≤ k then s.take k.toNat else s.take ((s.length : Int) + k).toNat

/-- Python slice `s[k:]` for an arbitrary integer `k`. -/
def pySliceFrom (s : List Nat) (k : Int) : List Nat :=
  if 0 ≤ k then s.drop k.toNat else s.drop ((s.length : Int) + k).toNat

/-- One-to-one rendering of the `while 1` loop body of `fragment`, with fuel.
`none` means the fuel ran out (the loop did not terminate within `fuel`
iterations). -/
def fragmentAux (maxsize : Int) : Nat → List Nat → List (List Nat) →
    Option (List (List Nat))
  | 0, _, _ => none
  | fuel + 1, s, fragments =>
    let fragments2 := fragments ++ [pySliceTo s maxsize]
    let s2 := pySliceFrom s maxsize
    if (s2.length : Int) ≤ maxsize then
      some (if 0 < s2.length then fragments2 ++ [s2] else fragments2)
    else
      fragmentAux maxsize fuel s2 fragments2

/-- `fragment(max_pdu_length, b)`.  The fuel `b.length + 1` is enough whenever
the Python loop terminates with `maxsize ≥ 1` (proved below). -/
def fragment (max_pdu_length : Int) (b : List Nat) : Option (List (List Nat)) :=
  fragmentAux (max_pdu_length - 6) (b.length + 1) b []

/-- The Python loop terminates on the given input. -/
def fragmentTerminates (max_pdu_length : Int) (b : List Nat) : Prop :=
  ∃ fuel, (fragmentAux (max_pdu_length - 6) fuel b []).isSome

/-! ### Fragmenter lemmas -/

theorem pySliceTo_nonneg (s : List Nat) (k : Int) (h : 0 ≤ k) :
    pySliceTo s k = s.take k.toNat := by
  simp [pySliceTo, h]

theorem pySliceFrom_nonneg (s : List Nat) (k : Int) (h : 0 ≤ k) :
    pySliceFrom s k = s.drop k.toNat := by
  simp [pySliceFrom, h]

/-- Accumulator invariant for `fragmentAux` with non-negative `maxsize`:
if the loop returns, the returned fragments are the accumulator followed by
chunks that concatenate to `s`, each of length at most `maxsize`. -/
theorem fragmentAux_spec (m : Int) (hm : 0 ≤ m) :
    ∀ (fuel : Nat) (s : List Nat) (acc : List (List Nat))
      (fr : List (List Nat)),
      fragmentAux m fuel s acc = some fr →
      fr.flatten = acc.flatten ++ s ∧
      ∀ c ∈ fr, c ∈ acc ∨ (c.length : Int) ≤ m := by
  intro fuel
  induction fuel with
  | zero => intro s acc fr h; simp [fragmentAux] at h
  | succ n ih =>
    intro s acc fr h
    rw [fragmentAux] at h
    simp only [pySliceTo_nonneg s m hm, pySliceFrom_nonneg s m hm] at h
    by_cases hle : ((s.drop m.toNat).length : Int) ≤ m
    · rw [if_pos hle] at h
      by_cases hpos : 0 < (s.drop m.toNat).length
      · rw [if_pos hpos] at h
        obtain rfl := Option.some.inj h.symm
        constructor
        · simp [List.flatten_append]
        · intro c hc
          simp only [List.mem_append, List.mem_singleton] at hc
          rcases hc with (hc | hc) | hc
          · exact Or.inl hc
          · right
            subst hc
            calc ((s.take m.toNat).length : Int)
                ≤ (m.toNat : Int) := by
                  exact_mod_cast Nat.le_of_lt_succ
                    (Nat.lt_succ_of_le (List.length_take_le _ _))
              _ = m := Int.toNat_of_nonneg hm
          · right; subst hc; exact hle
      · rw [if_neg hpos] at h
        obtain rfl := Option.some.inj h.symm
        have hnil : s.drop m.toNat = [] :=
          List.eq_nil_of_length_eq_zero (Nat.eq_zero_of_not_pos hpos)
        constructor
        · have : s.take m.toNat = s := by
            have := List.take_append_drop m.toNat s
            rw [hnil, List.append_nil] at this
            exact this
          simp [this]
        · intro c hc
          simp only [List.mem_append, List.mem_singleton] at hc
          rcases hc with hc | hc
          · exact Or.inl hc
          · right
            subst hc
            have hlen : s.length ≤ m.toNat := by
              have := congrArg List.length hnil
              simp at this
              omega
            calc ((s.take m.toNat).length : Int)
                ≤ (s.length : Int) := by exact_mod_cast List.length_take_le' _ _
              _ ≤ (m.toNat : Int) := by exact_mod_cast hlen
              _ = m := Int.toNat_of_nonneg hm
    · rw [if_neg hle] at h
      obtain ⟨hjoin, hmem⟩ := ih (s.drop m.toNat) (acc ++ [s.take m.toNat]) fr h
      constructor
      · rw [hjoin]
        simp [List.flatten_append, List.append_assoc]
      · intro c hc
        rcases hmem c hc with hcacc | hcm
        · simp only [List.mem_append, List.mem_singleton] at hcacc
          rcases hcacc with hcacc | hcacc
          · exact Or.inl hcacc
          · right
            subst hcacc
            calc ((s.take m.toNat).length : Int)
                ≤ (m.toNat : Int) := by
                  exact_mod_cast List.length_take_le _ _
              _ = m := Int.toNat_of_nonneg hm
        · exact Or.inr hcm

/-- With `maxsize ≥ 1`, fuel exceeding the input length is always enough. -/
theorem fragmentAux_isSome (m : Int) (hm : 1 ≤ m) :
    ∀ (fuel : Nat) (s : List Nat) (acc : List (List Nat)),
      s.length < fuel → (fragmentAux m fuel s acc).isSome := by
  intro fuel
  induction fuel with
  | zero => intro s acc h; omega
  | succ n ih =>
    intro s acc h
    rw [fragmentAux]
    have hm0 : 0 ≤ m := by omega
    simp only [pySliceTo_nonneg s m hm0, pySliceFrom_nonneg s m hm0]
    by_cases hle : ((s.drop m.toNat).length : Int) ≤ m
    · rw [if_pos hle]; simp
    · rw [if_neg hle]
      apply ih
      have hm1 : 1 ≤ m.toNat := by omega
      have hlen : (s.drop m.toNat).length = s.length - m.toNat := by simp
      have hgt : (m : Int) < ((s.drop m.toNat).length : Int) := by omega
      have : 1 ≤ (s.drop m.toNat).length := by omega
      omega

/-- With `maxsize ≤ 0` the loop never terminates, except in the single case
`maxsize = 0` with empty input. -/
theorem fragmentAux_none (m : Int) (hm : m ≤ 0) :
    ∀ (fuel : Nat) (s : List Nat) (acc : List (List Nat)),
      (s ≠ [] ∨ m < 0) → fragmentAux m fuel s acc = none := by
  intro fuel
  induction fuel with
  | zero => intro s acc _; rfl
  | succ n ih =>
    intro s acc hs
    rw [fragmentAux]
    rcases lt_or_eq_of_le hm with hlt | heq
    · -- maxsize < 0: the guard `len(s2) ≤ maxsize` can never hold
      have hguard : ¬ (((pySliceFrom s m).length : Int) ≤ m) := by
        have : (0 : Int) ≤ ((pySliceFrom s m).length : Int) := by positivity
        omega
      rw [if_neg hguard]
      exact ih _ _ (Or.inr hlt)
    · -- maxsize = 0: s[0:] = s, so non-empty s never shrinks
      subst heq
      rcases hs with hs | hs
      · have hfrom : pySliceFrom s 0 = s := by simp [pySliceFrom]
        have hguard : ¬ ((( pySliceFrom s 0).length : Int) ≤ 0) := by
          rw [hfrom]
          have : 0 < s.length := List.length_pos.mpr hs
          omega
        rw [if_neg hguard, hfrom]
        exact ih _ _ (Or.inl hs)
      · omega

/-- The returned fragment list is never empty (every iteration appends). -/
theorem fragmentAux_ne_nil (m : Int) :
    ∀ (fuel : Nat) (s : List Nat) (acc : List (List Nat))
      (fr : List (List Nat)),
      fragmentAux m fuel s acc = some fr → fr ≠ [] := by
  intro fuel
  induction fuel with
  | zero => intro s acc fr h; simp [fragmentAux] at h
  | succ n ih =>
    intro s acc fr h
    rw [fragmentAux] at h
    by_cases hle : ((pySliceFrom s m).length : Int) ≤ m
    · rw [if_pos hle] at h
      obtain rfl := Option.some.inj h.symm
      by_cases hpos : 0 < (pySliceFrom s m).length <;> simp [hpos]
    · rw [if_neg hle] at h
      exact ih _ _ _ h

/-! ## Command data sets (pydicom `Dataset` as used by the command-set codec)

A command set is a map from DICOM tags (all in group `0x0000`) to element
values.  Python (py2) element values occurring in this code are either
integers (US/UL elements), byte strings (UI/AE/LO elements, `''` initially),
or `None` (the base class's `command_field`).  pydicom data sets iterate in
tag order, so the map is kept as a tag-sorted association list. -/

/-- A DICOM tag `(group, element)`. -/
abbrev DicomTag := Nat × Nat

/-- A command-set element value. -/
inductive AttrValue
  | vNum (n : Nat)
  | vStr (s : List Nat)
  | vNone
deriving DecidableEq, Repr

/-- A pydicom `Dataset`, kept sorted by tag. -/
abbrev CommandDataset := List (DicomTag × AttrValue)

/-- Tag ordering (lexicographic on (group, element)). -/
def tagLt (a b : DicomTag) : Prop := a.1 < b.1 ∨ (a.1 = b.1 ∧ a.2 < b.2)

instance (a b : DicomTag) : Decidable (tagLt a b) := by
  unfold tagLt; infer_instance

/-- `ds[tag] = v` / `setattr`: update the element if the tag is present,
otherwise insert it at its sorted position. -/
def dsSet : CommandDataset → DicomTag → AttrValue → CommandDataset
  | [], t, v => [(t, v)]
  | (t1, v1) :: rest, t, v =>
    if t = t1 then (t, v) :: rest
    else if tagLt t t1 then (t, v) :: (t1, v1) :: rest
    else (t1, v1) :: dsSet rest t v

/-- `ds.get(tag)`: the element at `tag`, if present. -/
def dsGet : CommandDataset → DicomTag → Option AttrValue
  | [], _ => none
  | (t1, v1) :: rest, t => if t = t1 then some v1 else dsGet rest t

theorem dsGet_dsSet_self (ds : CommandDataset) (t : DicomTag) (v : AttrValue) :
    dsGet (dsSet ds t v) t = some v := by
  induction ds with
  | nil => simp [dsSet, dsGet]
  | cons hd tl ih =>
    obtain ⟨t1, v1⟩ := hd
    by_cases h : t = t1
    · simp [dsSet, dsGet, h]
    · by_cases h2 : tagLt t t1
      · simp [dsSet, dsGet, h, h2]
      · simp [dsSet, dsGet, h, h2, ih]

theorem dsGet_dsSet_ne (ds : CommandDataset) (t t2 : DicomTag) (v : AttrValue)
    (h : t2 ≠ t) : dsGet (dsSet ds t v) t2 = dsGet ds t2 := by
  induction ds with
  | nil => simp [dsSet, dsGet, h]
  | cons hd tl ih =>
    obtain ⟨t1, v1⟩ := hd
    by_cases h1 : t = t1
    · subst h1
      simp [dsSet, dsGet, h]
    · by_cases h2 : tagLt t t1
      · simp [dsSet, dsGet, h, h2, h1]
      · by_cases h3 : t2 = t1
        · simp [dsSet, dsGet, h1, h2, h3]
        · simp [dsSet, dsGet, h1, h2, h3, ih]

/-! ## The external data-set codec (`netdicom2.dsutils`)

The data-set encoder/decoder is an external collaborator of this repository
(spec §1: "assumed available as a library providing `encode_dataset`,
`decode_dataset`, `encode_element` over an implicit-VR little-endian transfer
syntax").  It is modelled as an abstract record of total functions; the
DIMSE-layer theorems are stated for an arbitrary codec or take the round-trip
behaviour they need as hypotheses. -/

structure DsCodec where
  /-- `dsutils.encode(dataset, is_implicit_VR, is_little_endian)` -/
  enc : CommandDataset → List Nat
  /-- `dsutils.decode(bytes, is_implicit_VR, is_little_endian)` -/
  dec : List Nat → CommandDataset
  /-- `dsutils.encode_element(elem, is_implicit_VR, is_little_endian)` -/
  encElem : DicomTag → AttrValue → List Nat

/-- Modelled from the spec: the command-set tags of §6 that carry integer
values (`UL` for `CommandGroupLength`, `US` for the rest); every other tag in
the table carries a string value.  Used by the concrete witness codec. -/
def isNumTag (t : DicomTag) : Bool :=
  t.1 = 0 && (t.2 = 0x0000 || t.2 = 0x0100 || t.2 = 0x0110 || t.2 = 0x0120 ||
    t.2 = 0x0700 || t.2 = 0x0800 || t.2 = 0x0900 || t.2 = 0x0903 ||
    t.2 = 0x1002 || t.2 = 0x1008 || t.2 = 0x1020 || t.2 = 0x1021 ||
    t.2 = 0x1022 || t.2 = 0x1023 || t.2 = 0x1031)

def le2 (n : Nat) : List Nat := [n % 256, n / 256 % 256]

def le4 (n : Nat) : List Nat :=
  [n % 256, n / 256 % 256, n / 65536 % 256, n / 16777216 % 256]

def rdLe2 (b : List Nat) : Nat := b.getD 0 0 + 256 * b.getD 1 0

def rdLe4 (b : List Nat) : Nat :=
  b.getD 0 0 + 256 * b.getD 1 0 + 65536 * b.getD 2 0 + 16777216 * b.getD 3 0

/-- Modelled from the spec: one implicit-VR little-endian element,
`group(2 LE) | element(2 LE) | value-length(4 LE) | value`, with `UL` values
on 4 bytes, `US` values on 2 bytes and string values as raw bytes (§6). -/
def encElemIVRLE (t : DicomTag) (v : AttrValue) : List Nat :=
  let payload : List Nat :=
    match v with
    | .vNum n => if t = (0, 0) then le4 n else le2 n
    | .vStr s => s
    | .vNone => []
  le2 t.1 ++ le2 t.2 ++ le4 payload.length ++ payload

/-- Modelled from the spec: `dsutils.encode` over implicit-VR little-endian. -/
def encDsIVRLE (ds : CommandDataset) : List Nat :=
  (ds.map fun tv => encElemIVRLE tv.1 tv.2).flatten

/-- Modelled from the spec: `dsutils.decode`; parses elements until the input
is exhausted (best effort on malformed tails). -/
def decDsAuxIVRLE : Nat → List Nat → CommandDataset → CommandDataset
  | 0, _, acc => acc
  | fuel + 1, bs, acc =>
    if bs.length < 8 then acc
    else
      let g := rdLe2 (bs.take 2)
      let e := rdLe2 ((bs.drop 2).take 2)
      let len := rdLe4 ((bs.drop 4).take 4)
      let payload := (bs.drop 8).take len
      let v : AttrValue :=
        if isNumTag (g, e) then
          .vNum (if (g, e) = ((0 : Nat), (0 : Nat)) then rdLe4 payload
                 else rdLe2 payload)
        else .vStr payload
      decDsAuxIVRLE fuel (bs.drop (8 + len)) (acc ++ [((g, e), v)])

def decDsIVRLE (bs : List Nat) : CommandDataset :=
  decDsAuxIVRLE (bs.length + 1) bs []

/-- The concrete implicit-VR little-endian codec used to evaluate the model
on concrete inputs. -/
def ivrleCodec : DsCodec :=
  { enc := encDsIVRLE, dec := decDsIVRLE, encElem := encElemIVRLE }

/-! ## DIMSE message classes (`netdicom2/dimsemessages.py`)

The Python class hierarchy is modelled as a `Variant` tag (the runtime class
of a message object, which `decode` swaps via `self.__class__ = ...`)
together with a record of the instance attributes set in
`DIMSEMessage.__init__`. -/

def NO_DATASET : Nat := 0x0101

inductive Variant
  | base       -- DIMSEMessage itself (the fresh receiver shell)
  | cEchoRQ | cEchoRSP
  | cStoreRQ | cStoreRSP
  | cFindRQ | cFindRSP
  | cGetRQ | cGetRSP
  | cMoveRQ | cMoveRSP
  | cCancelRQ
deriving DecidableEq, Repr

/-- The `command_field` class attribute of each class, exactly as written in
the source (note `CStoreRSPMessage.command_field = 0x0101` at line 353 and
`CFindRSPMessage.command_field = 0x0101` at line 404). -/
def command_fieldOf : Variant → Option Nat
  | .base => none
  | .cEchoRQ => some 0x0030
  | .cEchoRSP => some 0x8030
  | .cStoreRQ => some 0x0001
  | .cStoreRSP => some 0x0101
  | .cFindRQ => some 0x0020
  | .cFindRSP => some 0x0101
  | .cGetRQ => some 0x0010
  | .cGetRSP => some 0x8010
  | .cMoveRQ => some 0x0021
  | .cMoveRSP => some 0x8021
  | .cCancelRQ => some 0x0FFF

/-- The `command_fields` class attribute: keyword names resolved to their
tags through the dictionary registered at module import (lines 48-85). -/
def command_fieldsOf : Variant → List DicomTag
  | .base => []
  | .cEchoRQ => [(0, 0x0000), (0, 0x0002), (0, 0x0110)]
  | .cEchoRSP => [(0, 0x0000), (0, 0x0002), (0, 0x0120), (0, 0x0900)]
  | .cStoreRQ => [(0, 0x0000), (0, 0x0002), (0, 0x0110), (0, 0x0700),
                  (0, 0x1000), (0, 0x1030), (0, 0x1031)]
  | .cStoreRSP => [(0, 0x0000), (0, 0x0002), (0, 0x0120), (0, 0x0900),
                   (0, 0x1000)]
  | .cFindRQ => [(0, 0x0000), (0, 0x0002), (0, 0x0110), (0, 0x0700)]
  | .cFindRSP => [(0, 0x0000), (0, 0x0002), (0, 0x0120), (0, 0x0900)]
  | .cGetRQ => [(0, 0x0000), (0, 0x0002), (0, 0x0110), (0, 0x0700)]
  | .cGetRSP => [(0, 0x0000), (0, 0x0002), (0, 0x0120), (0, 0x0900),
                 (0, 0x1020), (0, 0x1021), (0, 0x1022), (0, 0x1023)]
  | .cMoveRQ => [(0, 0x0000), (0, 0x0002), (0, 0x0110), (0, 0x0700),
                 (0, 0x0600)]
  | .cMoveRSP => [(0, 0x0000), (0, 0x0002), (0, 0x0120), (0, 0x0900),
                  (0, 0x1020), (0, 0x1021), (0, 0x1022), (0, 0x1023)]
  | .cCancelRQ => [(0, 0x0000), (0, 0x0120)]

/-- The `MESSAGE_TYPE` catalog (lines 589-601), as a partial map from
command-field opcodes to classes; a missing key is a Python `KeyError`. -/
def MESSAGE_TYPE (n : Nat) : Option Variant :=
  if n = 0x0001 then some .cStoreRQ
  else if n = 0x8001 then some .cStoreRSP
  else if n = 0x0020 then some .cFindRQ
  else if n = 0x8020 then some .cFindRSP
  else if n = 0x0FFF then some .cCancelRQ
  else if n = 0x0010 then some .cGetRQ
  else if n = 0x8010 then some .cGetRSP
  else if n = 0x0021 then some .cMoveRQ
  else if n = 0x8021 then some .cMoveRSP
  else if n = 0x0030 then some .cEchoRQ
  else if n = 0x8030 then some .cEchoRSP
  else none

/-- A `DIMSEMessage` instance.  `variant` is the runtime class; the rest are
the attributes set in `__init__` (`self.ts` is constant and omitted). -/
structure DIMSEMessage where
  variant : Variant
  command_set : CommandDataset
  /-- the private `self._data_set` behind the `data_set` property (`''`). -/
  data_set : List Nat
  encoded_command_set : List (List Nat)
  encoded_data_set : List (List Nat)
  id_ : Option Nat
deriving DecidableEq, Repr

/-- `DIMSEMessage.__init__`: `CommandField` and `DataSetType` are set first,
then every name in `command_fields` is set to `''`.  (pydicom keeps elements
in tag order, which the sorted `dsSet` reproduces.) -/
def initCommandSet (v : Variant) : CommandDataset :=
  let ds := dsSet [] (0, 0x0100)
    (match command_fieldOf v with
     | some n => AttrValue.vNum n
     | none => AttrValue.vNone)
  let ds := dsSet ds (0, 0x0800) (.vNum NO_DATASET)
  (command_fieldsOf v).foldl (fun d t => dsSet d t (.vStr [])) ds

/-- Constructing a fresh message object of class `v`. -/
def mkMessage (v : Variant) : DIMSEMessage :=
  { variant := v
    command_set := initCommandSet v
    data_set := []
    encoded_command_set := []
    encoded_data_set := []
    id_ := none }

/-- The `data_set` property setter (lines 178-182): a truthy (non-empty)
value forces `DataSetType = 0x0001` in the command set. -/
def setDataSet (m : DIMSEMessage) (v : List Nat) : DIMSEMessage :=
  { m with
    command_set :=
      if v = [] then m.command_set
      else dsSet m.command_set (0, 0x0800) (.vNum 0x0001)
    data_set := v }

/-- `command_set[tag].value = x` (all call sites below write tags that
`__init__` pre-populated, so the update form of `dsSet` is exact). -/
def setCS (m : DIMSEMessage) (t : DicomTag) (v : AttrValue) : DIMSEMessage :=
  { m with command_set := dsSet m.command_set t v }

/-- `DIMSEMessage.set_length` (lines 253-257): the group-length element
`(0x0000,0x0000)` (first in tag order) is set to the summed encoded length of
all following elements. -/
def set_length (c : DsCodec) (m : DIMSEMessage) : DIMSEMessage :=
  setCS m (0, 0x0000)
    (.vNum ((m.command_set.drop 1).map
      (fun tv => (c.encElem tv.1 tv.2).length)).sum)

/-! ### Service parameter objects (`netdicom2.dimseparameters`)

Plain records exchanged with the application layer.  Python service-parameter
classes carry one attribute per field; only the fields read by the
`from_params` methods below are modelled.  Where a `from_params` reads
`params.field.value` (C-STORE-RSP, C-FIND-RSP), the parameter field holds a
`DataElement`; observationally only its `.value` matters, which is what the
record stores. -/

structure CEchoParams where
  affected_sop_class_uid : List Nat
  message_id : Nat
  message_id_being_responded_to : Nat
  status : Nat
deriving DecidableEq, Repr

structure CStoreParams where
  affected_sop_class_uid : List Nat
  message_id : Nat
  message_id_being_responded_to : Nat
  priority : Nat
  affected_sop_instance_uid : List Nat
  move_originator_aet : List Nat
  move_originator_message_id : Nat
  status : Nat
  data_set : List Nat
deriving DecidableEq, Repr

structure CFindParams where
  affected_sop_class_uid : List Nat
  message_id : Nat
  message_id_being_responded_to : Nat
  priority : Nat
  status : Nat
  identifier : List Nat
deriving DecidableEq, Repr

structure CGetMoveParams where
  affected_sop_class_uid : List Nat
  message_id : Nat
  message_id_being_responded_to : Nat
  priority : Nat
  status : Nat
  identifier : List Nat
  move_destination : List Nat
  num_of_remaining_sub_ops : Nat
  num_of_completed_sub_ops : Nat
  num_of_failed_sub_ops : Nat
  num_of_warning_sub_ops : Nat
deriving DecidableEq, Repr

structure CCancelParams where
  message_id_being_responded_to : Nat
deriving DecidableEq, Repr

/-! ### `from_params` / `to_params` (netdicom2 versions, lines 271-586)

Python truthiness on the values involved: a byte string is truthy iff
non-empty, an integer iff non-zero. -/

def CEchoRQMessage.from_params (c : DsCodec) (p : CEchoParams) : DIMSEMessage :=
  let m := mkMessage .cEchoRQ
  let m := setCS m (0, 0x0002) (.vStr p.affected_sop_class_uid)
  let m := setCS m (0, 0x0110) (.vNum p.message_id)
  set_length c m

def CEchoRSPMessage.from_params (c : DsCodec) (p : CEchoParams) :
    DIMSEMessage :=
  let m := mkMessage .cEchoRSP
  let m := if p.affected_sop_class_uid ≠ [] then
      setCS m (0, 0x0002) (.vStr p.affected_sop_class_uid)
    else m
  let m := setCS m (0, 0x0120) (.vNum p.message_id_being_responded_to)
  let m := setCS m (0, 0x0900) (.vNum p.status)
  set_length c m

/-- `CEchoRSPMessage.to_params` (lines 302-308): note the literal
`tmp.status = 0`.  Observationally the returned parameter object carries the
element found at each tag (`Dataset.get`, `none` when absent) and the plain
integer `0` for `status`. -/
structure CEchoParamsOut where
  affected_sop_class_uid : Option AttrValue
  message_id_being_responded_to : Option AttrValue
  status : Nat
deriving DecidableEq, Repr

def CEchoRSPMessage.to_params (m : DIMSEMessage) : CEchoParamsOut :=
  { affected_sop_class_uid := dsGet m.command_set (0, 0x0002)
    message_id_being_responded_to := dsGet m.command_set (0, 0x0120)
    status := 0 }

def CStoreRQMessage.from_params (c : DsCodec) (p : CStoreParams) :
    DIMSEMessage :=
  let m := mkMessage .cStoreRQ
  let m := setCS m (0, 0x0002) (.vStr p.affected_sop_class_uid)
  let m := setCS m (0, 0x0110) (.vNum p.message_id)
  let m := setCS m (0, 0x0700) (.vNum p.priority)
  let m := setCS m (0, 0x1000) (.vStr p.affected_sop_instance_uid)
  let m := if p.move_originator_aet ≠ [] then
      setCS m (0, 0x1030) (.vStr p.move_originator_aet)
    else setCS m (0, 0x1030) (.vStr [])
  let m := if p.move_originator_message_id ≠ 0 then
      setCS m (0, 0x1031) (.vNum p.move_originator_message_id)
    else setCS m (0, 0x1031) (.vStr [])
  let m := setDataSet m p.data_set
  set_length c m

def CStoreRSPMessage.from_params (c : DsCodec) (p : CStoreParams) :
    DIMSEMessage :=
  let m := mkMessage .cStoreRSP
  let m := setCS m (0, 0x0002) (.vStr p.affected_sop_class_uid)
  let m := setCS m (0, 0x0120) (.vNum p.message_id_being_responded_to)
  let m := setCS m (0, 0x0900) (.vNum p.status)
  let m := setCS m (0, 0x1000) (.vStr p.affected_sop_instance_uid)
  set_length c m

def CFindRQMessage.from_params (c : DsCodec) (p : CFindParams) :
    DIMSEMessage :=
  let m := mkMessage .cFindRQ
  let m := setCS m (0, 0x0002) (.vStr p.affected_sop_class_uid)
  let m := setCS m (0, 0x0110) (.vNum p.message_id)
  let m := setCS m (0, 0x0700) (.vNum p.priority)
  let m := setDataSet m p.identifier
  set_length c m

def CFindRSPMessage.from_params (c : DsCodec) (p : CFindParams) :
    DIMSEMessage :=
  let m := mkMessage .cFindRSP
  let m := setCS m (0, 0x0002) (.vStr p.affected_sop_class_uid)
  let m := setCS m (0, 0x0120) (.vNum p.message_id_being_responded_to)
  let m := setCS m (0, 0x0900) (.vNum p.status)
  let m := setDataSet m p.identifier
  set_length c m

def CGetRQMessage.from_params (c : DsCodec) (p : CGetMoveParams) :
    DIMSEMessage :=
  let m := mkMessage .cGetRQ
  let m := setCS m (0, 0x0002) (.vStr p.affected_sop_class_uid)
  let m := setCS m (0, 0x0110) (.vNum p.message_id)
  let m := setCS m (0, 0x0700) (.vNum p.priority)
  let m := setDataSet m p.identifier
  set_length c m

def CGetRSPMessage.from_params (c : DsCodec) (p : CGetMoveParams) :
    DIMSEMessage :=
  let m := mkMessage .cGetRSP
  let m := setCS m (0, 0x0002) (.vStr p.affected_sop_class_uid)
  let m := setCS m (0, 0x0120) (.vNum p.message_id_being_responded_to)
  let m := setCS m (0, 0x0900) (.vNum p.status)
  let m := setCS m (0, 0x1020) (.vNum p.num_of_remaining_sub_ops)
  let m := setCS m (0, 0x1021) (.vNum p.num_of_completed_sub_ops)
  let m := setCS m (0, 0x1022) (.vNum p.num_of_failed_sub_ops)
  let m := setCS m (0, 0x1023) (.vNum p.num_of_warning_sub_ops)
  set_length c m

def CMoveRQMessage.from_params (c : DsCodec) (p : CGetMoveParams) :
    DIMSEMessage :=
  let m := mkMessage .cMoveRQ
  let m := setCS m (0, 0x0002) (.vStr p.affected_sop_class_uid)
  let m := setCS m (0, 0x0110) (.vNum p.message_id)
  let m := setCS m (0, 0x0700) (.vNum p.priority)
  let m := setCS m (0, 0x0600) (.vStr p.move_destination)
  let m := setDataSet m p.identifier
  set_length c m

def CMoveRSPMessage.from_params (c : DsCodec) (p : CGetMoveParams) :
    DIMSEMessage :=
  let m := mkMessage .cMoveRSP
  let m := setCS m (0, 0x0002) (.vStr p.affected_sop_class_uid)
  let m := setCS m (0, 0x0120) (.vNum p.message_id_being_responded_to)
  let m := setCS m (0, 0x0900) (.vNum p.status)
  let m := setCS m (0, 0x1020) (.vNum p.num_of_remaining_sub_ops)
  let m := setCS m (0, 0x1021) (.vNum p.num_of_completed_sub_ops)
  let m := setCS m (0, 0x1022) (.vNum p.num_of_failed_sub_ops)
  let m := setCS m (0, 0x1023) (.vNum p.num_of_warning_sub_ops)
  set_length c m

def CCancelRQMessage.from_params (c : DsCodec) (p : CCancelParams) :
    DIMSEMessage :=
  let m := mkMessage .cCancelRQ
  let m := setCS m (0, 0x0120) (.vNum p.message_id_being_responded_to)
  set_length c m

/-- "Any variant's `from_params`" as a single dispatch. -/
inductive ParamsU
  | echoRq (p : CEchoParams) | echoRsp (p : CEchoParams)
  | storeRq (p : CStoreParams) | storeRsp (p : CStoreParams)
  | findRq (p : CFindParams) | findRsp (p : CFindParams)
  | getRq (p : CGetMoveParams) | getRsp (p : CGetMoveParams)
  | moveRq (p : CGetMoveParams) | moveRsp (p : CGetMoveParams)
  | cancelRq (p : CCancelParams)
deriving DecidableEq, Repr

def fromParamsU (c : DsCodec) : ParamsU → DIMSEMessage
  | .echoRq p => CEchoRQMessage.from_params c p
  | .echoRsp p => CEchoRSPMessage.from_params c p
  | .storeRq p => CStoreRQMessage.from_params c p
  | .storeRsp p => CStoreRSPMessage.from_params c p
  | .findRq p => CFindRQMessage.from_params c p
  | .findRsp p => CFindRSPMessage.from_params c p
  | .getRq p => CGetRQMessage.from_params c p
  | .getRsp p => CGetRSPMessage.from_params c p
  | .moveRq p => CMoveRQMessage.from_params c p
  | .moveRsp p => CMoveRSPMessage.from_params c p
  | .cancelRq p => CCancelRQMessage.from_params c p

/-! ## DIMSE transport (`encode` / `decode`, lines 184-251)

A `pdu.PresentationDataValueItem` is `(context_id, data_value)` where
`data_value` is the 1-byte message-control header followed by the fragment;
a `pdu.PDataTfPDU` is its list of data-value items. -/

structure PresentationDataValueItem where
  context_id : Nat
  data_value : List Nat
deriving DecidableEq, Repr

abbrev PDataTfPDU := List PresentationDataValueItem

/-- `pdvs[-1]` on the (always non-empty) fragment list. -/
def lastFragment (l : List (List Nat)) : List Nat := l.getLastD []

/-- `DIMSEMessage.encode(id_, max_pdu_length)` (lines 184-218).  Its only
state effect is `self.id_ = id_`, which nothing later observes, so the
returned PDU list is the model.  `none` means the `fragment` loop diverged
(max_pdu_length ≤ 6 with data present). -/
def DIMSEMessage.encode (c : DsCodec) (m : DIMSEMessage) (id2 : Nat)
    (max_pdu_length : Int) : Option (List PDataTfPDU) :=
  match fragment max_pdu_length (c.enc m.command_set) with
  | none => none
  | some pdvs =>
    let cmd : List PDataTfPDU :=
      pdvs.dropLast.map
        (fun f => [PresentationDataValueItem.mk id2 (1 :: f)]) ++
      [[PresentationDataValueItem.mk id2 (3 :: lastFragment pdvs)]]
    if m.data_set = [] then some cmd
    else
      match fragment max_pdu_length m.data_set with
      | none => none
      | some dvs =>
        some (cmd ++
          dvs.dropLast.map
            (fun f => [PresentationDataValueItem.mk id2 (0 :: f)]) ++
          [[PresentationDataValueItem.mk id2 (2 :: lastFragment dvs)]])

/-- The exceptions `decode` can raise. -/
inductive DIMSEError
  /-- `exceptions.DIMSEProcessingError('Incorrect first PDV byte')` -/
  | dimse_processing_error
  /-- Python `KeyError` (missing dataset tag, or opcode missing from
  `MESSAGE_TYPE`) -/
  | key_error
  /-- Python `IndexError` (`data_value[0]` on an empty value) -/
  | index_error
deriving DecidableEq, Repr

/-- `struct.unpack('b', byte)[0]`: the byte read as a signed char. -/
def sMarker (b : Nat) : Int := if b ≤ 127 then (b : Int) else (b : Int) - 256

/-- `MESSAGE_TYPE[value]` where `value` is a decoded element value (a
non-integer value is likewise a `KeyError`). -/
def MESSAGE_TYPEv : AttrValue → Option Variant
  | .vNum n => MESSAGE_TYPE n
  | _ => none

/-- The PDV loop of `DIMSEMessage.decode` (lines 226-251), one iteration per
data-value item.  `.ok (b, m)` models `return b` with updated state `m`. -/
def decodeItems (c : DsCodec) :
    DIMSEMessage → List PresentationDataValueItem →
    Except DIMSEError (Bool × DIMSEMessage)
  | m, [] => .ok (false, m)
  | m, item :: rest =>
    let m1 := { m with id_ := some item.context_id }
    match item.data_value with
    | [] => .error .index_error
    | b :: payload =>
      let marker := sMarker b
      if marker = 1 ∨ marker = 3 then
        let m2 := { m1 with
          encoded_command_set := m1.encoded_command_set ++ [payload] }
        if marker = 3 then
          let cs := c.dec m2.encoded_command_set.flatten
          let m3 := { m2 with command_set := cs, encoded_command_set := [] }
          match dsGet cs (0, 0x0100) with
          | none => .error .key_error
          | some cf =>
            match MESSAGE_TYPEv cf with
            | none => .error .key_error
            | some v =>
              let m4 := { m3 with variant := v }
              match dsGet cs (0, 0x0800) with
              | none => .error .key_error
              | some dst =>
                if dst = AttrValue.vNum NO_DATASET then .ok (true, m4)
                else decodeItems c m4 rest
        else decodeItems c m2 rest
      else if marker = 0 ∨ marker = 2 then
        let m2 := { m1 with
          encoded_data_set := m1.encoded_data_set ++ [payload] }
        if marker = 2 then
          let m3 := setDataSet { m2 with encoded_data_set := [] }
            m2.encoded_data_set.flatten
          .ok (true, m3)
        else decodeItems c m2 rest
      else .error .dimse_processing_error

/-- `DIMSEMessage.decode(p_data)` on a P-DATA-TF PDU. -/
def DIMSEMessage.decode (c : DsCodec) (m : DIMSEMessage) (p : PDataTfPDU) :
    Except DIMSEError (Bool × DIMSEMessage) :=
  decodeItems c m p

/-- "A freshly constructed receiver": `DIMSEMessage()`. -/
def freshReceiver : DIMSEMessage := mkMessage .base

/-- Feeding a PDU list to one receiver in order, collecting the value of
each `decode` call. -/
def feedAll (c : DsCodec) :
    DIMSEMessage → List PDataTfPDU → Except DIMSEError (List Bool × DIMSEMessage)
  | m, [] => .ok ([], m)
  | m, p :: ps =>
    match DIMSEMessage.decode c m p with
    | .error e => .error e
    | .ok (b, m2) =>
      match feedAll c m2 ps with
      | .error e => .error e
      | .ok (bs, m3) => .ok (b :: bs, m3)

/-! ## DUL provider network plane (`netdicom2/dulprovider.py`)

Only the PDU-type classification path of `check_incoming_pdu` is modelled:
`socket_to_pdu` (lines 272-299) picks a PDU class by type byte;
`pdu_to_event` (lines 302-319) maps the class to an FSM event, and its
`else` branch first calls `logger.log('Unrecognized or invalid PDU')` —
`logging.Logger.log(level, msg, ...)` with a single positional argument,
which raises `TypeError` in Python — before it could return `'Evt19'`;
`check_incoming_pdu` (line 176) then calls `self.pdu.to_params()`, which on
the `None` returned by `socket_to_pdu` for an unknown type byte raises
`AttributeError`. -/

inductive PDUType
  | a_associate_rq | a_associate_ac | a_associate_rj
  | p_data_tf | a_release_rq | a_release_rp | a_abort
deriving DecidableEq, Repr

inductive PyError
  | type_error
  | attribute_error
deriving DecidableEq, Repr

def socket_to_pdu (typeByte : Nat) : Option PDUType :=
  if typeByte = 0x01 then some .a_associate_rq
  else if typeByte = 0x02 then some .a_associate_ac
  else if typeByte = 0x03 then some .a_associate_rj
  else if typeByte = 0x04 then some .p_data_tf
  else if typeByte = 0x05 then some .a_release_rq
  else if typeByte = 0x06 then some .a_release_rp
  else if typeByte = 0x07 then some .a_abort
  else none

/-- `logging.Logger.log` invoked with only a message and no level
(`logger.log('Unrecognized or invalid PDU')`, line 318): `TypeError`. -/
def logger_log_missing_level : Except PyError Unit := .error .type_error

def pdu_to_event : Option PDUType → Except PyError String
  | some .a_associate_rq => .ok "Evt6"
  | some .a_associate_ac => .ok "Evt3"
  | some .a_associate_rj => .ok "Evt4"
  | some .p_data_tf => .ok "Evt10"
  | some .a_release_rq => .ok "Evt12"
  | some .a_release_rp => .ok "Evt13"
  | some .a_abort => .ok "Evt16"
  | none =>
    match logger_log_missing_level with
    | .error e => .error e
    | .ok _ => .ok "Evt19"

/-- `self.pdu.to_params()` (line 176): `AttributeError` when `self.pdu` is
`None`. -/
def pdu_to_params : Option PDUType → Except PyError PDUType
  | none => .error .attribute_error
  | some t => .ok t

/-- The tail of `check_incoming_pdu` (lines 164-176) after a PDU with the
given type byte has been framed off the socket: classify, queue the event,
extract the primitive.  An `.error` models an exception escaping
`check_incoming_pdu` (and hence `run`). -/
def check_incoming_pdu_classify (typeByte : Nat) : Except PyError String :=
  let p := socket_to_pdu typeByte
  match pdu_to_event p with
  | .error e => .error e
  | .ok evt =>
    match pdu_to_params p with
    | .error e => .error e
    | .ok _ => .ok evt

/-! ## Specification-level predicates and concrete test vectors -/

/-- The DataSetType consistency invariant of spec §3/§8:
`DataSetType == 0x0101` iff the data set is empty/absent. -/
def dimseInvariant (m : DIMSEMessage) : Prop :=
  dsGet m.command_set (0, 0x0800) = some (.vNum NO_DATASET) ↔ m.data_set = []

/-- A PDV whose first byte is a legal message-control header
(read as a signed char, one of `{0, 1, 2, 3}`). -/
def headerOk (pdv : PresentationDataValueItem) : Bool :=
  match pdv.data_value with
  | [] => false
  | b :: _ =>
    decide (sMarker b = 0) || decide (sMarker b = 1) ||
    decide (sMarker b = 2) || decide (sMarker b = 3)

/-- The message-control header the spec's encoder contract (§4.4) assigns to
the `i`-th PDU out of `ncmd` command PDUs followed by `ndata` data PDUs. -/
def expectedHeader (ncmd ndata i : Nat) : Nat :=
  if i + 1 < ncmd then 1
  else if i + 1 = ncmd then 3
  else if i + 1 < ncmd + ndata then 0
  else 2

/-- A degenerate dataset codec (constant answers); used only to instantiate
universally-quantified theorems in their witnesses. -/
def constCodec (bs : List Nat) (ds : CommandDataset) : DsCodec :=
  { enc := fun _ => bs, dec := fun _ => ds, encElem := fun _ _ => [] }

/-- Concrete C-ECHO parameters (`affected_sop_class_uid='1.2'`,
`message_id=7`). -/
def pEcho0 : CEchoParams :=
  { affected_sop_class_uid := [49, 46, 50]
    message_id := 7
    message_id_being_responded_to := 5
    status := 1 }

/-- Concrete C-STORE parameters. -/
def pStore0 : CStoreParams :=
  { affected_sop_class_uid := [49]
    message_id := 1
    message_id_being_responded_to := 1
    priority := 0
    affected_sop_instance_uid := [50]
    move_originator_aet := []
    move_originator_message_id := 0
    status := 0
    data_set := [] }

/-- Concrete C-FIND parameters. -/
def pFind0 : CFindParams :=
  { affected_sop_class_uid := [49]
    message_id := 2
    message_id_being_responded_to := 2
    priority := 0
    status := 0
    identifier := [] }

/-- A command set whose `CommandField` value `0x0002` is not a
`MESSAGE_TYPE` key. -/
def csUnknownOpcode : CommandDataset :=
  [((0, 0x0100), .vNum 0x0002), ((0, 0x0800), .vNum NO_DATASET)]

/-- A command set with no `CommandField` element at all. -/
def csNoCommandField : CommandDataset :=
  [((0, 0x0800), .vNum NO_DATASET)]

/-! ## Helper lemmas on message construction -/

theorem dsGet_setCS_self (m : DIMSEMessage) (t : DicomTag) (v : AttrValue) :
    dsGet (setCS m t v).command_set t = some v :=
  dsGet_dsSet_self m.command_set t v

theorem dsGet_setCS_ne (m : DIMSEMessage) (t t2 : DicomTag) (v : AttrValue)
    (h : t2 ≠ t) : dsGet (setCS m t v).command_set t2 = dsGet m.command_set t2 :=
  dsGet_dsSet_ne m.command_set t t2 v h

theorem setCS_data_set (m : DIMSEMessage) (t : DicomTag) (v : AttrValue) :
    (setCS m t v).data_set = m.data_set := rfl

theorem set_length_data_set (c : DsCodec) (m : DIMSEMessage) :
    (set_length c m).data_set = m.data_set := rfl

theorem dsGet_set_length_ne (c : DsCodec) (m : DIMSEMessage) (t2 : DicomTag)
    (h : t2 ≠ (0, 0)) :
    dsGet (set_length c m).command_set t2 = dsGet m.command_set t2 :=
  dsGet_dsSet_ne m.command_set (0, 0) t2 _ h

theorem setDataSet_data_set (m : DIMSEMessage) (v : List Nat) :
    (setDataSet m v).data_set = v := rfl

theorem dsGet_setDataSet_dst (m : DIMSEMessage) (v : List Nat) :
    dsGet (setDataSet m v).command_set (0, 0x0800) =
      if v = [] then dsGet m.command_set (0, 0x0800)
      else some (.vNum 0x0001) := by
  by_cases h : v = []
  · simp [setDataSet, h]
  · simp only [setDataSet, if_neg h]
    exact dsGet_dsSet_self m.command_set (0, 0x0800) (.vNum 0x0001)

/-! ## C4: fragmentation round trip -/

/-- C4: for every `max_pdu_length ≥ 7` and every byte string `B`,
`fragment(max_pdu_length, B)` returns, the concatenation of the returned
chunks equals `B`, and every chunk has length at most `max_pdu_length - 6`. -/
theorem C4_fragment_round_trip (max_pdu_length : Int) (b : List Nat)
    (h : 7 ≤ max_pdu_length) :
    ∃ fr, fragment max_pdu_length b = some fr ∧ fr.flatten = b ∧
      ∀ ch ∈ fr, (ch.length : Int) ≤ max_pdu_length - 6 := by
  have hm : (1 : Int) ≤ max_pdu_length - 6 := by omega
  have hsome := fragmentAux_isSome (max_pdu_length - 6) hm (b.length + 1) b []
    (by omega)
  obtain ⟨fr, hfr⟩ := Option.isSome_iff_exists.mp hsome
  have hspec := fragmentAux_spec (max_pdu_length - 6) (by omega)
    (b.length + 1) b [] fr hfr
  refine ⟨fr, hfr, by simpa using hspec.1, ?_⟩
  intro ch hch
  rcases hspec.2 ch hch with h1 | h1
  · simp at h1
  · exact h1

theorem C4_fragment_round_trip_witness :
    ∃ fr, fragment 9 [1, 2, 3, 4, 5, 6, 7] = some fr ∧
      fr.flatten = [1, 2, 3, 4, 5, 6, 7] ∧
      ∀ ch ∈ fr, (ch.length : Int) ≤ 9 - 6 :=
  C4_fragment_round_trip 9 [1, 2, 3, 4, 5, 6, 7] (by norm_num)

/-! ## C10: fragment termination -/

/-- C10 counterexample: the claimed termination condition
"`max_pdu_length ≥ 7` or `B` empty" is false at `max_pdu_length = 5`,
`B = ''`: there `maxsize = -1`, the guard `len(s) <= maxsize` can never hold
and the loop runs forever even on empty input. -/
theorem C10_counterexample :
    ¬ (fragmentTerminates 5 [] ↔ (7 ≤ (5 : Int) ∨ ([] : List Nat) = [])) := by
  intro h
  obtain ⟨fuel, hfuel⟩ := h.mpr (Or.inr rfl)
  have hnone : fragmentAux ((5 : Int) - 6) fuel [] [] = none :=
    fragmentAux_none _ (by norm_num) fuel [] [] (Or.inr (by norm_num))
  rw [hnone] at hfuel
  simp at hfuel

/-- C10 (amended): `fragment(max_pdu_length, B)` terminates iff
`max_pdu_length ≥ 7`, or `B` is empty and `max_pdu_length ≥ 6`; in
particular it never terminates for `max_pdu_length ≤ 6` with non-empty `B`
(the chunk size `max_pdu_length - 6` is not positive and the remaining input
never shrinks), and also never terminates for `max_pdu_length ≤ 5` even with
empty `B`. -/
theorem C10_fragment_termination (max_pdu_length : Int) (b : List Nat) :
    fragmentTerminates max_pdu_length b ↔
      (7 ≤ max_pdu_length ∨ (b = [] ∧ 6 ≤ max_pdu_length)) := by
  constructor
  · rintro ⟨fuel, hfuel⟩
    by_contra hcon
    push_neg at hcon
    obtain ⟨h7, h6⟩ := hcon
    have hnone : fragmentAux (max_pdu_length - 6) fuel b [] = none := by
      apply fragmentAux_none _ (by omega)
      by_cases hb : b = []
      · exact Or.inr (by have := h6 hb; omega)
      · exact Or.inl hb
    rw [hnone] at hfuel
    simp at hfuel
  · rintro (h | ⟨hb, h6⟩)
    · exact ⟨b.length + 1,
        fragmentAux_isSome _ (by omega) _ _ _ (by omega)⟩
    · subst hb
      refine ⟨1, ?_⟩
      have hm0 : (0 : Int) ≤ max_pdu_length - 6 := by omega
      rw [fragmentAux]
      simp [pySliceTo, pySliceFrom, hm0]

/-! ## C2: command-field opcodes -/

/-- C2: the code contradicts its own catalog.  `MESSAGE_TYPE` registers
`CStoreRSPMessage` under `0x8001` and `CFindRSPMessage` under `0x8020`
(matching the spec's opcode table), but both classes declare
`command_field = 0x0101`, and that is the `CommandField` value every message
they build carries. -/
theorem C2_command_field_mismatch :
    MESSAGE_TYPE 0x8001 = some Variant.cStoreRSP ∧
    command_fieldOf Variant.cStoreRSP = some 0x0101 ∧
    MESSAGE_TYPE 0x8020 = some Variant.cFindRSP ∧
    command_fieldOf Variant.cFindRSP = some 0x0101 ∧
    dsGet (CStoreRSPMessage.from_params ivrleCodec pStore0).command_set
      (0, 0x0100) = some (.vNum 0x0101) ∧
    dsGet (CFindRSPMessage.from_params ivrleCodec pFind0).command_set
      (0, 0x0100) = some (.vNum 0x0101) ∧
    (0x0101 : Nat) ≠ 0x8001 ∧ (0x0101 : Nat) ≠ 0x8020 := by
  refine ⟨rfl, rfl, rfl, rfl, rfl, rfl, by norm_num, by norm_num⟩

/-! ## C7: unknown PDU type in the provider loop -/

/-- C7: an incoming PDU with type byte `0x0A` does *not* get translated to a
handled `Evt19`: `pdu_to_event`'s fallback calls `logger.log` with a single
argument, which raises `TypeError` out of `check_incoming_pdu` (and even with
a correct logging call, `self.pdu.to_params()` on the `None` PDU would raise
`AttributeError`).  In-range type bytes are classified normally. -/
theorem C7_unknown_pdu_type_raises :
    check_incoming_pdu_classify 0x0A = Except.error PyError.type_error ∧
    pdu_to_params (socket_to_pdu 0x0A) = Except.error PyError.attribute_error ∧
    check_incoming_pdu_classify 0x04 = Except.ok "Evt10" :=
  ⟨rfl, rfl, rfl⟩

/-! ## C3: DIMSE parameter round trip (C-ECHO-RSP) -/

/-- C3 counterexample: `CEchoRSPMessage.to_params` hard-codes
`tmp.status = 0` (line 307), so a C-ECHO-RSP built from parameters with
`status = 1` does not round-trip its status. -/
theorem C3_counterexample :
    (CEchoRSPMessage.to_params
      (CEchoRSPMessage.from_params ivrleCodec pEcho0)).status ≠
      pEcho0.status := by
  norm_num [CEchoRSPMessage.to_params, pEcho0]

/-- C3 (amended): for C-ECHO-RSP, `from_params` followed by `to_params`
preserves `affected_sop_class_uid` and `message_id_being_responded_to`
(as element values), but always returns `status = 0` regardless of the input
parameters' status. -/
theorem C3_echo_rsp_round_trip (c : DsCodec) (p : CEchoParams) :
    (CEchoRSPMessage.to_params
        (CEchoRSPMessage.from_params c p)).affected_sop_class_uid =
      some (.vStr p.affected_sop_class_uid) ∧
    (CEchoRSPMessage.to_params
        (CEchoRSPMessage.from_params c p)).message_id_being_responded_to =
      some (.vNum p.message_id_being_responded_to) ∧
    (CEchoRSPMessage.to_params (CEchoRSPMessage.from_params c p)).status = 0 := by
  unfold CEchoRSPMessage.to_params CEchoRSPMessage.from_params set_length
  dsimp only
  refine ⟨?_, ?_, rfl⟩
  · rw [dsGet_setCS_ne _ _ _ _ (by decide), dsGet_setCS_ne _ _ _ _ (by decide),
      dsGet_setCS_ne _ _ _ _ (by decide)]
    by_cases h : p.affected_sop_class_uid ≠ []
    · rw [if_pos h]
      exact dsGet_setCS_self _ _ _
    · rw [if_neg h]
      push_neg at h
      rw [h]
      rfl
  · rw [dsGet_setCS_ne _ _ _ _ (by decide), dsGet_setCS_ne _ _ _ _ (by decide),
      dsGet_setCS_self]

/-! ## C5 helpers: DataSetType consistency of `from_params` messages -/

theorem dimseInvariant_set_length (c : DsCodec) (m : DIMSEMessage)
    (h1 : m.data_set = [])
    (h2 : dsGet m.command_set (0, 0x0800) = some (.vNum NO_DATASET)) :
    dimseInvariant (set_length c m) := by
  unfold dimseInvariant
  rw [set_length_data_set, dsGet_set_length_ne _ _ _ (by decide)]
  exact iff_of_true h2 h1

theorem dimseInvariant_set_length_setDataSet (c : DsCodec) (m : DIMSEMessage)
    (v : List Nat)
    (h : dsGet m.command_set (0, 0x0800) = some (.vNum NO_DATASET)) :
    dimseInvariant (set_length c (setDataSet m v)) := by
  unfold dimseInvariant
  rw [set_length_data_set, setDataSet_data_set,
    dsGet_set_length_ne _ _ _ (by decide), dsGet_setDataSet_dst]
  by_cases hv : v = []
  · rw [if_pos hv]
    exact iff_of_true h hv
  · rw [if_neg hv]
    refine iff_of_false ?_ hv
    intro hcon
    have : AttrValue.vNum 0x0001 = AttrValue.vNum NO_DATASET :=
      Option.some.inj hcon
    simp [NO_DATASET] at this


theorem dsGet_ite_setCS_ne (cnd : Prop) [Decidable cnd] (m : DIMSEMessage)
    (t t2 : DicomTag) (v1 v2 : AttrValue) (h : t2 ≠ t) :
    dsGet (if cnd then setCS m t v1 else setCS m t v2).command_set t2 =
      dsGet m.command_set t2 := by
  by_cases hc : cnd
  · rw [if_pos hc]; exact dsGet_setCS_ne _ _ _ _ h
  · rw [if_neg hc]; exact dsGet_setCS_ne _ _ _ _ h

theorem dsGet_ite_setCS_id_ne (cnd : Prop) [Decidable cnd] (m : DIMSEMessage)
    (t t2 : DicomTag) (v : AttrValue) (h : t2 ≠ t) :
    dsGet (if cnd then setCS m t v else m).command_set t2 =
      dsGet m.command_set t2 := by
  by_cases hc : cnd
  · rw [if_pos hc]; exact dsGet_setCS_ne _ _ _ _ h
  · rw [if_neg hc]

theorem ite_setCS_data_set (cnd : Prop) [Decidable cnd] (m : DIMSEMessage)
    (t t2 : DicomTag) (v1 v2 : AttrValue) :
    (if cnd then setCS m t v1 else setCS m t2 v2).data_set = m.data_set := by
  by_cases hc : cnd
  · rw [if_pos hc]; rfl
  · rw [if_neg hc]; rfl

theorem ite_setCS_id_data_set (cnd : Prop) [Decidable cnd] (m : DIMSEMessage)
    (t : DicomTag) (v : AttrValue) :
    (if cnd then setCS m t v else m).data_set = m.data_set := by
  by_cases hc : cnd
  · rw [if_pos hc]; rfl
  · rw [if_neg hc]

/-- Part (i) of C5: every message built by any variant's `from_params`
satisfies the DataSetType consistency invariant. -/
theorem fromParamsU_invariant (c : DsCodec) (p : ParamsU) :
    dimseInvariant (fromParamsU c p) := by
  cases p with
  | echoRq p =>
    apply dimseInvariant_set_length c _ rfl
    rw [dsGet_setCS_ne _ _ _ _ (by decide), dsGet_setCS_ne _ _ _ _ (by decide)]
    rfl
  | echoRsp p =>
    unfold fromParamsU CEchoRSPMessage.from_params
    dsimp only
    apply dimseInvariant_set_length c _
      (by rw [setCS_data_set, setCS_data_set, ite_setCS_id_data_set]; rfl)
    rw [dsGet_setCS_ne _ _ _ _ (by decide), dsGet_setCS_ne _ _ _ _ (by decide),
      dsGet_ite_setCS_id_ne _ _ _ _ _ (by decide)]
    rfl
  | storeRq p =>
    unfold fromParamsU CStoreRQMessage.from_params
    dsimp only
    apply dimseInvariant_set_length_setDataSet
    rw [dsGet_ite_setCS_ne _ _ _ _ _ _ (by decide),
      dsGet_ite_setCS_ne _ _ _ _ _ _ (by decide),
      dsGet_setCS_ne _ _ _ _ (by decide), dsGet_setCS_ne _ _ _ _ (by decide),
      dsGet_setCS_ne _ _ _ _ (by decide), dsGet_setCS_ne _ _ _ _ (by decide)]
    rfl
  | storeRsp p =>
    apply dimseInvariant_set_length c _ rfl
    rw [dsGet_setCS_ne _ _ _ _ (by decide), dsGet_setCS_ne _ _ _ _ (by decide),
      dsGet_setCS_ne _ _ _ _ (by decide), dsGet_setCS_ne _ _ _ _ (by decide)]
    rfl
  | findRq p =>
    apply dimseInvariant_set_length_setDataSet
    rw [dsGet_setCS_ne _ _ _ _ (by decide), dsGet_setCS_ne _ _ _ _ (by decide),
      dsGet_setCS_ne _ _ _ _ (by decide)]
    rfl
  | findRsp p =>
    apply dimseInvariant_set_length_setDataSet
    rw [dsGet_setCS_ne _ _ _ _ (by decide), dsGet_setCS_ne _ _ _ _ (by decide),
      dsGet_setCS_ne _ _ _ _ (by decide)]
    rfl
  | getRq p =>
    apply dimseInvariant_set_length_setDataSet
    rw [dsGet_setCS_ne _ _ _ _ (by decide), dsGet_setCS_ne _ _ _ _ (by decide),
      dsGet_setCS_ne _ _ _ _ (by decide)]
    rfl
  | getRsp p =>
    apply dimseInvariant_set_length c _ rfl
    rw [dsGet_setCS_ne _ _ _ _ (by decide), dsGet_setCS_ne _ _ _ _ (by decide),
      dsGet_setCS_ne _ _ _ _ (by decide), dsGet_setCS_ne _ _ _ _ (by decide),
      dsGet_setCS_ne _ _ _ _ (by decide), dsGet_setCS_ne _ _ _ _ (by decide),
      dsGet_setCS_ne _ _ _ _ (by decide)]
    rfl
  | moveRq p =>
    apply dimseInvariant_set_length_setDataSet
    rw [dsGet_setCS_ne _ _ _ _ (by decide), dsGet_setCS_ne _ _ _ _ (by decide),
      dsGet_setCS_ne _ _ _ _ (by decide), dsGet_setCS_ne _ _ _ _ (by decide)]
    rfl
  | moveRsp p =>
    apply dimseInvariant_set_length c _ rfl
    rw [dsGet_setCS_ne _ _ _ _ (by decide), dsGet_setCS_ne _ _ _ _ (by decide),
      dsGet_setCS_ne _ _ _ _ (by decide), dsGet_setCS_ne _ _ _ _ (by decide),
      dsGet_setCS_ne _ _ _ _ (by decide), dsGet_setCS_ne _ _ _ _ (by decide),
      dsGet_setCS_ne _ _ _ _ (by decide)]
    rfl
  | cancelRq p =>
    apply dimseInvariant_set_length c _ rfl
    rw [dsGet_setCS_ne _ _ _ _ (by decide)]
    rfl

/-! ## Decode / feed lemmas -/

theorem feedAll_cons (c : DsCodec) (st : DIMSEMessage) (p : PDataTfPDU)
    (ps : List PDataTfPDU) :
    feedAll c st (p :: ps) =
      match DIMSEMessage.decode c st p with
      | .error e => .error e
      | .ok (b, m2) =>
        match feedAll c m2 ps with
        | .error e => .error e
        | .ok (bs, m3) => .ok (b :: bs, m3) := rfl

theorem decode_cmd_frag (c : DsCodec) (st : DIMSEMessage) (id2 : Nat)
    (f : List Nat) :
    DIMSEMessage.decode c st [⟨id2, 1 :: f⟩] =
      .ok (false,
        { st with
            id_ := some id2
            encoded_command_set := st.encoded_command_set ++ [f] }) := rfl

theorem decode_data_frag (c : DsCodec) (st : DIMSEMessage) (id2 : Nat)
    (f : List Nat) :
    DIMSEMessage.decode c st [⟨id2, 0 :: f⟩] =
      .ok (false,
        { st with
            id_ := some id2
            encoded_data_set := st.encoded_data_set ++ [f] }) := rfl

/-- Feeding only non-last command-fragment PDUs: every `decode` returns
`False`, and only `id_` and the command buffer change. -/
theorem feed_cmd_frags (c : DsCodec) (id2 : Nat) :
    ∀ (chunks : List (List Nat)) (st : DIMSEMessage),
      ∃ st1, feedAll c st
        (chunks.map fun f => [⟨id2, 1 :: f⟩]) =
          .ok (List.replicate chunks.length false, st1) ∧
        st1.command_set = st.command_set ∧
        st1.data_set = st.data_set ∧
        st1.encoded_command_set = st.encoded_command_set ++ chunks ∧
        st1.encoded_data_set = st.encoded_data_set := by
  intro chunks
  induction chunks with
  | nil => intro st; exact ⟨st, rfl, rfl, rfl, by simp, rfl⟩
  | cons f rest ih =>
    intro st
    obtain ⟨st1, hfeed, h1, h2, h3, h4⟩ :=
      ih { st with
            id_ := some id2
            encoded_command_set := st.encoded_command_set ++ [f] }
    dsimp only at h1 h2 h3 h4
    refine ⟨st1, ?_, h1, h2, by simp [h3], h4⟩
    rw [List.map_cons, feedAll_cons, decode_cmd_frag]
    dsimp only
    rw [hfeed]
    rw [List.length_cons, List.replicate_succ]

/-- Feeding only non-last data-fragment PDUs. -/
theorem feed_data_frags (c : DsCodec) (id2 : Nat) :
    ∀ (chunks : List (List Nat)) (st : DIMSEMessage),
      ∃ st1, feedAll c st
        (chunks.map fun f => [⟨id2, 0 :: f⟩]) =
          .ok (List.replicate chunks.length false, st1) ∧
        st1.command_set = st.command_set ∧
        st1.data_set = st.data_set ∧
        st1.encoded_command_set = st.encoded_command_set ∧
        st1.encoded_data_set = st.encoded_data_set ++ chunks := by
  intro chunks
  induction chunks with
  | nil => intro st; exact ⟨st, rfl, rfl, rfl, rfl, by simp⟩
  | cons f rest ih =>
    intro st
    obtain ⟨st1, hfeed, h1, h2, h3, h4⟩ :=
      ih { st with
            id_ := some id2
            encoded_data_set := st.encoded_data_set ++ [f] }
    dsimp only at h1 h2 h3 h4
    refine ⟨st1, ?_, h1, h2, h3, by simp [h4]⟩
    rw [List.map_cons, feedAll_cons, decode_data_frag]
    dsimp only
    rw [hfeed]
    rw [List.length_cons, List.replicate_succ]

theorem feedAll_append_ok (c : DsCodec) :
    ∀ (xs ys : List PDataTfPDU) (st r : DIMSEMessage) (bs : List Bool),
      feedAll c st (xs ++ ys) = .ok (bs, r) →
      ∃ bs1 st1 bs2, feedAll c st xs = .ok (bs1, st1) ∧
        feedAll c st1 ys = .ok (bs2, r) ∧ bs = bs1 ++ bs2 := by
  intro xs
  induction xs with
  | nil =>
    intro ys st r bs h
    exact ⟨[], st, bs, rfl, h, rfl⟩
  | cons p ps ih =>
    intro ys st r bs h
    rw [List.cons_append, feedAll_cons] at h
    cases hd : DIMSEMessage.decode c st p with
    | error e => rw [hd] at h; cases h
    | ok v =>
      obtain ⟨b, m2⟩ := v
      rw [hd] at h
      dsimp only at h
      cases hrest : feedAll c m2 (ps ++ ys) with
      | error e => rw [hrest] at h; cases h
      | ok w =>
        obtain ⟨bs3, m3⟩ := w
        rw [hrest] at h
        dsimp only at h
        obtain ⟨bs1, st1, bs2, hxs, hys, hbs1⟩ := ih ys m2 m3 bs3 hrest
        refine ⟨b :: bs1, st1, bs2, ?_, ?_, ?_⟩
        · rw [feedAll_cons, hd]
          dsimp only
          rw [hxs]
        · cases h; exact hys
        · cases h; rw [hbs1]; rfl

theorem feedAll_single_ok (c : DsCodec) (st r : DIMSEMessage)
    (p : PDataTfPDU) (bs : List Bool)
    (h : feedAll c st [p] = .ok (bs, r)) :
    ∃ b, bs = [b] ∧ DIMSEMessage.decode c st p = .ok (b, r) := by
  rw [feedAll_cons] at h
  cases hd : DIMSEMessage.decode c st p with
  | error e => rw [hd] at h; cases h
  | ok v =>
    obtain ⟨b, m2⟩ := v
    rw [hd] at h
    dsimp only [feedAll] at h
    refine ⟨b, ?_, ?_⟩
    · cases h; rfl
    · cases h; rfl

/-- What a last-command-fragment PDV can do when it does not raise: the data
buffers are untouched, the command set becomes the decode of the accumulated
command bytes, and a `True` return means the decoded `DataSetType` was
`0x0101`. -/
theorem decode_last_cmd_ok (c : DsCodec) (st : DIMSEMessage) (id2 : Nat)
    (f : List Nat) (b : Bool) (r : DIMSEMessage)
    (h : DIMSEMessage.decode c st [⟨id2, 3 :: f⟩] = .ok (b, r)) :
    r.data_set = st.data_set ∧
    r.encoded_data_set = st.encoded_data_set ∧
    r.command_set = c.dec (st.encoded_command_set.flatten ++ f) ∧
    r.encoded_command_set = [] ∧
    (b = true →
      dsGet r.command_set (0, 0x0800) = some (.vNum NO_DATASET)) := by
  rw [DIMSEMessage.decode, decodeItems] at h
  simp only [sMarker] at h
  norm_num at h
  cases h1 : dsGet (c.dec (st.encoded_command_set.flatten ++ f))
      (0, 0x0100) with
  | none => rw [h1] at h; cases h
  | some cf =>
    rw [h1] at h
    dsimp only at h
    cases h2 : MESSAGE_TYPEv cf with
    | none => rw [h2] at h; cases h
    | some v =>
      rw [h2] at h
      dsimp only at h
      cases h3 : dsGet (c.dec (st.encoded_command_set.flatten ++ f))
          (0, 0x0800) with
      | none => rw [h3] at h; cases h
      | some dst =>
        rw [h3] at h
        dsimp only at h
        by_cases h4 : dst = AttrValue.vNum NO_DATASET
        · rw [if_pos h4] at h
          cases h
          subst h4
          exact ⟨rfl, rfl, rfl, rfl, fun _ => h3⟩
        · rw [if_neg h4] at h
          rw [decodeItems] at h
          cases h
          refine ⟨rfl, rfl, rfl, rfl, fun hb => ?_⟩
          cases hb

/-- A last-data-fragment PDV always returns `True`; the received data set is
the concatenation of the buffered data fragments, and if it is non-empty the
`data_set` setter forces `DataSetType = 0x0001`. -/
theorem decode_last_data_ok (c : DsCodec) (st : DIMSEMessage) (id2 : Nat)
    (f : List Nat) (b : Bool) (r : DIMSEMessage)
    (h : DIMSEMessage.decode c st [⟨id2, 2 :: f⟩] = .ok (b, r)) :
    b = true ∧
    r.data_set = st.encoded_data_set.flatten ++ f ∧
    (st.encoded_data_set.flatten ++ f ≠ [] →
      dsGet r.command_set (0, 0x0800) = some (.vNum 0x0001)) := by
  rw [DIMSEMessage.decode, decodeItems] at h
  simp only [sMarker, setDataSet] at h
  norm_num at h
  obtain ⟨hb, hr⟩ := h
  subst hb
  subst hr
  refine ⟨rfl, rfl, ?_⟩
  intro hne
  dsimp only
  rw [if_neg ?hcond]
  case hcond =>
    rintro ⟨h1, h2⟩
    apply hne
    subst h2
    simp only [List.append_nil]
    exact List.flatten_eq_nil_iff.mpr h1
  exact dsGet_dsSet_self _ _ _

theorem replicate_false_getLast (n : Nat) :
    (List.replicate n false).getLast? ≠ some true := by
  cases n with
  | zero => simp
  | succ k =>
    rw [List.replicate_succ', List.getLast?_concat]
    simp

/-- Feeding a prefix made only of non-last command fragments yields only
`False` returns. -/
theorem feed_map_cmd_false (c : DsCodec) (id2 : Nat)
    (chunks : List (List Nat)) (st r : DIMSEMessage) (bs : List Bool)
    (hfeed : feedAll c st (chunks.map fun f => [⟨id2, 1 :: f⟩]) =
      .ok (bs, r)) :
    bs = List.replicate chunks.length false := by
  obtain ⟨st1, hfeed', _, _, _, _⟩ := feed_cmd_frags c id2 chunks st
  rw [hfeed'] at hfeed
  cases hfeed
  rfl

theorem feed_map_data_false (c : DsCodec) (id2 : Nat)
    (chunks : List (List Nat)) (st r : DIMSEMessage) (bs : List Bool)
    (hfeed : feedAll c st (chunks.map fun f => [⟨id2, 0 :: f⟩]) =
      .ok (bs, r)) :
    bs = List.replicate chunks.length false := by
  obtain ⟨st1, hfeed', _, _, _, _⟩ := feed_data_frags c id2 chunks st
  rw [hfeed'] at hfeed
  cases hfeed
  rfl

/-- Feeding the full command block emitted by `encode` (non-last fragments
with header 1, then the last fragment with header 3): the booleans are all
`False` followed by one final verdict `b`, the data-side state is untouched,
and `b = True` certifies `DataSetType = 0x0101` in the received command
set. -/
theorem feed_cmds_block (c : DsCodec) (id2 : Nat) (pdvs : List (List Nat))
    (st : DIMSEMessage) (bs : List Bool) (r : DIMSEMessage)
    (hfeed : feedAll c st
      (pdvs.dropLast.map (fun f => [⟨id2, 1 :: f⟩]) ++
        [[⟨id2, 3 :: lastFragment pdvs⟩]]) = .ok (bs, r)) :
    ∃ b, bs = List.replicate pdvs.dropLast.length false ++ [b] ∧
      r.data_set = st.data_set ∧
      r.encoded_data_set = st.encoded_data_set ∧
      r.encoded_command_set = [] ∧
      (b = true →
        dsGet r.command_set (0, 0x0800) = some (.vNum NO_DATASET)) := by
  obtain ⟨bs1, st1, bs2, h1, h2, rfl⟩ := feedAll_append_ok c _ _ st r bs hfeed
  obtain ⟨st1', hfeed', p1, p2, p3, p4⟩ := feed_cmd_frags c id2 pdvs.dropLast st
  rw [hfeed'] at h1
  have hsub : bs1 = List.replicate pdvs.dropLast.length false ∧ st1 = st1' := by
    cases h1; exact ⟨rfl, rfl⟩
  obtain ⟨hbs1, hst1⟩ := hsub
  rw [hst1] at h2
  obtain ⟨b, hbs2, hdec⟩ := feedAll_single_ok c st1' r _ bs2 h2
  obtain ⟨q1, q2, _, q4, q5⟩ := decode_last_cmd_ok c st1' id2 _ b r hdec
  refine ⟨b, by rw [hbs1, hbs2], ?_, ?_, q4, q5⟩
  · rw [q1, p2]
  · rw [q2, p4]

/-- The complete-at-last-command case: the final verdict was `True`, so the
receiver has `DataSetType = 0x0101` and (having started fresh and seen only
command fragments) an empty data set: the invariant holds. -/
theorem invariant_of_cmds_complete (c : DsCodec) (id2 : Nat)
    (pdvs : List (List Nat)) (bs : List Bool) (r : DIMSEMessage)
    (hfeed : feedAll c freshReceiver
      (pdvs.dropLast.map (fun f => [⟨id2, 1 :: f⟩]) ++
        [[⟨id2, 3 :: lastFragment pdvs⟩]]) = .ok (bs, r))
    (hlast : bs.getLast? = some true) :
    dimseInvariant r := by
  obtain ⟨b, hbs, hdata, _, _, himp⟩ :=
    feed_cmds_block c id2 pdvs freshReceiver bs r hfeed
  rw [hbs, List.getLast?_concat] at hlast
  have hb : b = true := by injection hlast
  refine iff_of_true (himp hb) ?_
  rw [hdata]
  rfl

theorem dropLast_append_lastFragment (l : List (List Nat)) (h : l ≠ []) :
    l.dropLast ++ [lastFragment l] = l := by
  have : lastFragment l = l.getLast h := by
    rw [lastFragment, List.getLastD_eq_getLast?, List.getLast?_eq_getLast l h]
    rfl
  rw [this]
  exact List.dropLast_append_getLast h

theorem getLast_append_replicate_false (xs : List Bool) (k : Nat)
    (hk : k ≠ 0) :
    (xs ++ List.replicate k false).getLast? = some false := by
  cases k with
  | zero => omega
  | succ k2 =>
    rw [List.replicate_succ', ← List.append_assoc, List.getLast?_concat]

/-- Part (ii) of C5: whenever a fresh receiver fed some prefix of the PDUs
emitted by `encode` answers `True` on the last PDU it was fed, the receiver
state satisfies the DataSetType consistency invariant. -/
theorem decode_complete_invariant (c : DsCodec) (m : DIMSEMessage)
    (id2 : Nat) (mpl : Int) (pdus pre post : List PDataTfPDU)
    (bs : List Bool) (r : DIMSEMessage)
    (henc : DIMSEMessage.encode c m id2 mpl = some pdus)
    (hpre : pre ++ post = pdus)
    (hfeed : feedAll c freshReceiver pre = .ok (bs, r))
    (hlast : bs.getLast? = some true) :
    dimseInvariant r := by
  rw [DIMSEMessage.encode] at henc
  cases hf : fragment mpl (c.enc m.command_set) with
  | none => rw [hf] at henc; cases henc
  | some pdvs =>
    rw [hf] at henc
    dsimp only at henc
    by_cases hds : m.data_set = []
    · rw [if_pos hds] at henc
      have hpdus : pre ++ post =
          pdvs.dropLast.map
            (fun f => [(⟨id2, 1 :: f⟩ : PresentationDataValueItem)]) ++
            [[⟨id2, 3 :: lastFragment pdvs⟩]] := by
        rw [hpre, ← Option.some.inj henc]
      rcases List.append_eq_append_iff.mp hpdus with
        ⟨a1, hA, hpost⟩ | ⟨c1, hpre2, hc1⟩
      · obtain ⟨l1, l2, hsplit, hl1, hl2⟩ := List.map_eq_append_iff.mp hA
        rw [← hl1] at hfeed
        rw [feed_map_cmd_false c id2 l1 freshReceiver r bs hfeed] at hlast
        exact absurd hlast (replicate_false_getLast _)
      · cases c1 with
        | nil =>
          rw [List.append_nil] at hpre2
          rw [hpre2] at hfeed
          rw [feed_map_cmd_false c id2 pdvs.dropLast freshReceiver r bs
            hfeed] at hlast
          exact absurd hlast (replicate_false_getLast _)
        | cons x xs =>
          rw [List.cons_append] at hc1
          injection hc1 with h1 h2
          obtain ⟨hxs, _⟩ := List.append_eq_nil.mp h2.symm
          subst hxs
          rw [← h1] at hpre2
          rw [hpre2] at hfeed
          exact invariant_of_cmds_complete c id2 pdvs bs r hfeed hlast
    · rw [if_neg hds] at henc
      cases hg : fragment mpl m.data_set with
      | none => rw [hg] at henc; cases henc
      | some dvs =>
        rw [hg] at henc
        dsimp only at henc
        have hpdus : pre ++ post =
            (pdvs.dropLast.map
              (fun f => [(⟨id2, 1 :: f⟩ : PresentationDataValueItem)]) ++
              [[⟨id2, 3 :: lastFragment pdvs⟩]]) ++
            (dvs.dropLast.map
              (fun f => [(⟨id2, 0 :: f⟩ : PresentationDataValueItem)]) ++
              [[⟨id2, 2 :: lastFragment dvs⟩]]) := by
          rw [hpre, ← Option.some.inj henc, List.append_assoc]
        rcases List.append_eq_append_iff.mp hpdus with
          ⟨a1, hA, hpost⟩ | ⟨c1, hpre2, hc1⟩
        · -- pre is covered by the command block
          rcases List.append_eq_append_iff.mp hA with
            ⟨a2, hpre3, hB⟩ | ⟨c2, hmap, ha1⟩
          · cases a2 with
            | nil =>
              rw [List.append_nil] at hpre3
              rw [hpre3] at hfeed
              rw [feed_map_cmd_false c id2 pdvs.dropLast freshReceiver r bs
                hfeed] at hlast
              exact absurd hlast (replicate_false_getLast _)
            | cons x xs =>
              rw [List.cons_append] at hB
              injection hB with h1 h2
              obtain ⟨hxs, _⟩ := List.append_eq_nil.mp h2.symm
              subst hxs
              rw [← h1] at hpre3
              rw [hpre3] at hfeed
              exact invariant_of_cmds_complete c id2 pdvs bs r hfeed hlast
          · obtain ⟨l1, l2, hsplit, hl1, hl2⟩ := List.map_eq_append_iff.mp hmap
            rw [← hl1] at hfeed
            rw [feed_map_cmd_false c id2 l1 freshReceiver r bs hfeed] at hlast
            exact absurd hlast (replicate_false_getLast _)
        · -- pre = command block ++ c1 with c1 inside the data block
          rw [hpre2] at hfeed
          obtain ⟨bs1, st1, bs2, h1, h2, rfl⟩ :=
            feedAll_append_ok c _ _ _ r bs hfeed
          obtain ⟨b1, hbs1, hdata1, heds1, hecs1, himp1⟩ :=
            feed_cmds_block c id2 pdvs freshReceiver bs1 st1 h1
          rcases List.append_eq_append_iff.mp hc1.symm with
            ⟨a2, hmap, hpost2⟩ | ⟨c2, hc1', hD⟩
          · -- c1 is a prefix of the non-last data fragments: never complete
            obtain ⟨l1, l2, hsplit, hl1, hl2⟩ := List.map_eq_append_iff.mp hmap
            rw [← hl1] at h2
            have hbs2 := feed_map_data_false c id2 l1 st1 r bs2 h2
            by_cases hl1nil : l1 = []
            · subst hl1nil
              simp only [List.length_nil, List.replicate_zero] at hbs2
              subst hbs2
              have hr : r = st1 := by
                simp only [List.map_nil, feedAll] at h2
                cases h2
                rfl
              subst hr
              rw [List.append_nil, hbs1, List.getLast?_concat] at hlast
              have hb1 : b1 = true := by injection hlast
              refine iff_of_true (himp1 hb1) ?_
              rw [hdata1]
              rfl
            · rw [hbs2] at hlast
              rw [getLast_append_replicate_false bs1 l1.length
                (fun hcon => hl1nil (List.eq_nil_of_length_eq_zero hcon))]
                at hlast
              cases hlast
          · -- c1 is the whole data block: complete at the last data PDV
            cases c2 with
            | nil =>
              rw [List.append_nil] at hc1'
              rw [hc1'] at h2
              have hbs2 := feed_map_data_false c id2 dvs.dropLast st1 r bs2 h2
              by_cases hdl : dvs.dropLast = []
              · rw [hdl] at hbs2
                simp only [List.length_nil, List.replicate_zero] at hbs2
                have hr : r = st1 := by
                  rw [hdl] at h2
                  simp only [List.map_nil, feedAll] at h2
                  cases h2
                  rfl
                subst hr
                rw [hbs2, List.append_nil, hbs1, List.getLast?_concat] at hlast
                have hb1 : b1 = true := by injection hlast
                refine iff_of_true (himp1 hb1) ?_
                rw [hdata1]
                rfl
              · rw [hbs2] at hlast
                rw [getLast_append_replicate_false bs1 dvs.dropLast.length
                  (fun hcon => hdl (List.eq_nil_of_length_eq_zero hcon))]
                  at hlast
                cases hlast
            | cons x xs =>
              rw [List.cons_append] at hD
              injection hD with h3 h4
              obtain ⟨hxs, _⟩ := List.append_eq_nil.mp h4.symm
              subst hxs
              rw [← h3] at hc1'
              rw [hc1'] at h2
              obtain ⟨bs3, st2, bs4, h5, h6, rfl⟩ :=
                feedAll_append_ok c _ _ _ r bs2 h2
              obtain ⟨st2', hfeed', q1, q2, q3, q4⟩ :=
                feed_data_frags c id2 dvs.dropLast st1
              rw [hfeed'] at h5
              have hst2 : st2 = st2' := by cases h5; rfl
              rw [hst2] at h6
              obtain ⟨b2, hbs4, hdec⟩ := feedAll_single_ok c st2' r _ bs4 h6
              obtain ⟨hb2, hrdata, hrdst⟩ :=
                decode_last_data_ok c st2' id2 _ b2 r hdec
              -- the received data set is the full original data set
              have hm0 : (0 : Int) ≤ mpl - 6 := by
                by_contra hc0
                push_neg at hc0
                have hnone := fragmentAux_none (mpl - 6) (by omega)
                  (m.data_set.length + 1) m.data_set [] (Or.inr (by omega))
                rw [fragment, hnone] at hg
                cases hg
              have hg' : fragmentAux (mpl - 6) (m.data_set.length + 1)
                  m.data_set [] = some dvs := hg
              have hflat : dvs.flatten = m.data_set := by
                have := (fragmentAux_spec (mpl - 6) hm0 _ _ _ _ hg').1
                simpa using this
              have hdvs_ne : dvs ≠ [] := fragmentAux_ne_nil _ _ _ _ _ hg'
              have hfull : st2'.encoded_data_set.flatten ++ lastFragment dvs =
                  m.data_set := by
                rw [q4, heds1]
                have : freshReceiver.encoded_data_set = [] := rfl
                rw [this, List.nil_append]
                calc dvs.dropLast.flatten ++ lastFragment dvs
                    = (dvs.dropLast ++ [lastFragment dvs]).flatten := by
                      simp [List.flatten_append]
                  _ = dvs.flatten := by
                      rw [dropLast_append_lastFragment dvs hdvs_ne]
                  _ = m.data_set := hflat
              have hrdata2 : r.data_set = m.data_set := by rw [hrdata, hfull]
              refine iff_of_false ?_ ?_
              · intro hcon
                have := hrdst (by rw [hfull]; exact hds)
                rw [this] at hcon
                have h9 : AttrValue.vNum 0x0001 = AttrValue.vNum NO_DATASET :=
                  Option.some.inj hcon
                simp [NO_DATASET] at h9
              · rw [hrdata2]
                exact hds

/-- C5: every DIMSE message produced by any variant's `from_params`, and
every receiver state in which `decode` reported *complete* while being fed
(a prefix of) the PDUs produced by `encode`, satisfies the invariant
`DataSetType = 0x0101 ↔ the data set is empty/absent`. -/
theorem C5_data_set_type_consistency :
    (∀ (c : DsCodec) (p : ParamsU), dimseInvariant (fromParamsU c p)) ∧
    (∀ (c : DsCodec) (m : DIMSEMessage) (id2 : Nat) (mpl : Int)
      (pdus pre post : List PDataTfPDU) (bs : List Bool) (r : DIMSEMessage),
      DIMSEMessage.encode c m id2 mpl = some pdus →
      pre ++ post = pdus →
      feedAll c freshReceiver pre = .ok (bs, r) →
      bs.getLast? = some true →
      dimseInvariant r) :=
  ⟨fromParamsU_invariant,
   fun c m id2 mpl pdus pre post bs r henc hpre hfeed hlast =>
     decode_complete_invariant c m id2 mpl pdus pre post bs r
       henc hpre hfeed hlast⟩

theorem C5_data_set_type_consistency_witness :
    dimseInvariant (fromParamsU ivrleCodec (ParamsU.echoRq pEcho0)) ∧
    dimseInvariant
      { variant := Variant.cEchoRQ
        command_set := [((0, 0x0100), AttrValue.vNum 0x0030),
          ((0, 0x0800), AttrValue.vNum 0x0101)]
        data_set := []
        encoded_command_set := []
        encoded_data_set := []
        id_ := some 1 } :=
  ⟨C5_data_set_type_consistency.1 ivrleCodec (ParamsU.echoRq pEcho0),
   C5_data_set_type_consistency.2
     (constCodec [7] [((0, 0x0100), AttrValue.vNum 0x0030),
       ((0, 0x0800), AttrValue.vNum 0x0101)])
     (mkMessage .base) 1 16384 [[⟨1, [3, 7]⟩]] [[⟨1, [3, 7]⟩]] [] [true]
     { variant := Variant.cEchoRQ
       command_set := [((0, 0x0100), AttrValue.vNum 0x0030),
         ((0, 0x0800), AttrValue.vNum 0x0101)]
       data_set := []
       encoded_command_set := []
       encoded_data_set := []
       id_ := some 1 }
     rfl rfl rfl rfl⟩

/-- C6: every PDU emitted by `encode(ctx_id, max_pdu_length)` contains
exactly one PDV carrying `ctx_id`; the command-fragment PDUs come first with
header byte 1 except the last command fragment with header 3, and exactly
when the message's data set is non-empty they are followed by data-fragment
PDUs with header 0 except the last with header 2. -/
theorem C6_encode_structure (c : DsCodec) (m : DIMSEMessage) (id2 : Nat)
    (mpl : Int) (pdus : List PDataTfPDU)
    (henc : DIMSEMessage.encode c m id2 mpl = some pdus) :
    ∃ ncmd ndata, pdus.length = ncmd + ndata ∧ 0 < ncmd ∧
      (0 < ndata ↔ m.data_set ≠ []) ∧
      ∀ i, i < ncmd + ndata →
        ∃ v, pdus[i]? =
          some [⟨id2, expectedHeader ncmd ndata i :: v⟩] := by
  rw [DIMSEMessage.encode] at henc
  cases hf : fragment mpl (c.enc m.command_set) with
  | none => rw [hf] at henc; cases henc
  | some pdvs =>
    rw [hf] at henc
    dsimp only at henc
    have hne : pdvs ≠ [] := fragmentAux_ne_nil _ _ _ _ _ hf
    have hpos : 0 < pdvs.length := List.length_pos.mpr hne
    by_cases hds : m.data_set = []
    · rw [if_pos hds] at henc
      obtain rfl := Option.some.inj henc
      refine ⟨pdvs.length, 0, ?_, hpos, by simp [hds], ?_⟩
      · simp
        omega
      · intro i hi
        rcases Nat.lt_or_ge i (pdvs.length - 1) with hi1 | hi1
        · have hiA : i < (pdvs.dropLast.map
              (fun f =>
                [(⟨id2, 1 :: f⟩ : PresentationDataValueItem)])).length := by
            simp
            omega
          have hiL : i < pdvs.dropLast.length := by simp; omega
          refine ⟨pdvs.dropLast[i], ?_⟩
          rw [List.getElem?_append_left hiA, List.getElem?_map,
            List.getElem?_eq_getElem hiL]
          rw [expectedHeader, if_pos (by omega)]
          rfl
        · have hieq : i = pdvs.length - 1 := by omega
          have hiA : (pdvs.dropLast.map
              (fun f =>
                [(⟨id2, 1 :: f⟩ : PresentationDataValueItem)])).length ≤ i := by
            simp
            omega
          refine ⟨lastFragment pdvs, ?_⟩
          rw [List.getElem?_append_right hiA]
          have : i - (pdvs.dropLast.map
              (fun f =>
                [(⟨id2, 1 :: f⟩ : PresentationDataValueItem)])).length = 0 := by
            simp
            omega
          rw [this]
          rw [expectedHeader, if_neg (by omega), if_pos (by omega)]
          rfl
    · rw [if_neg hds] at henc
      cases hg : fragment mpl m.data_set with
      | none => rw [hg] at henc; cases henc
      | some dvs =>
        rw [hg] at henc
        dsimp only at henc
        obtain rfl := Option.some.inj henc
        have hdne : dvs ≠ [] := fragmentAux_ne_nil _ _ _ _ _ hg
        have hdpos : 0 < dvs.length := List.length_pos.mpr hdne
        refine ⟨pdvs.length, dvs.length, ?_, hpos, ?_, ?_⟩
        · simp
          omega
        · exact iff_of_true hdpos hds
        · intro i hi
          have hlenA : (pdvs.dropLast.map
              (fun f =>
                [(⟨id2, 1 :: f⟩ : PresentationDataValueItem)])).length =
              pdvs.length - 1 := by simp
          have hlenC : (dvs.dropLast.map
              (fun f =>
                [(⟨id2, 0 :: f⟩ : PresentationDataValueItem)])).length =
              dvs.length - 1 := by simp
          have hlenAB : (pdvs.dropLast.map
              (fun f =>
                [(⟨id2, 1 :: f⟩ : PresentationDataValueItem)]) ++
              [[(⟨id2, 3 :: lastFragment pdvs⟩ :
                  PresentationDataValueItem)]]).length = pdvs.length := by
            simp
            omega
          have hlenABC : ((pdvs.dropLast.map
              (fun f =>
                [(⟨id2, 1 :: f⟩ : PresentationDataValueItem)]) ++
              [[(⟨id2, 3 :: lastFragment pdvs⟩ :
                  PresentationDataValueItem)]]) ++
              dvs.dropLast.map
                (fun f =>
                  [(⟨id2, 0 :: f⟩ : PresentationDataValueItem)])).length =
              pdvs.length + (dvs.length - 1) := by
            simp
            omega
          rcases Nat.lt_or_ge i (pdvs.length - 1) with hi1 | hi1
          · have hiL : i < pdvs.dropLast.length := by simp; omega
            refine ⟨pdvs.dropLast[i], ?_⟩
            rw [List.getElem?_append_left (by rw [hlenABC]; omega),
              List.getElem?_append_left (by rw [hlenAB]; omega),
              List.getElem?_append_left (by rw [hlenA]; omega),
              List.getElem?_map, List.getElem?_eq_getElem hiL]
            rw [expectedHeader, if_pos (by omega)]
            rfl
          · rcases Nat.lt_or_ge i pdvs.length with hi2 | hi2
            · have hieq : i = pdvs.length - 1 := by omega
              refine ⟨lastFragment pdvs, ?_⟩
              rw [List.getElem?_append_left (by rw [hlenABC]; omega),
                List.getElem?_append_left (by rw [hlenAB]; omega),
                List.getElem?_append_right (by rw [hlenA]; omega)]
              have : i - (pdvs.dropLast.map
                  (fun f =>
                    [(⟨id2, 1 :: f⟩ :
                        PresentationDataValueItem)])).length = 0 := by
                rw [hlenA]; omega
              rw [this]
              rw [expectedHeader, if_neg (by omega), if_pos (by omega)]
              rfl
            · rcases Nat.lt_or_ge i (pdvs.length + (dvs.length - 1)) with
                hi3 | hi3
              · have hiL : i - pdvs.length < dvs.dropLast.length := by
                  simp; omega
                refine ⟨dvs.dropLast[i - pdvs.length], ?_⟩
                rw [List.getElem?_append_left (by rw [hlenABC]; omega),
                  List.getElem?_append_right (by rw [hlenAB]; omega),
                  hlenAB, List.getElem?_map, List.getElem?_eq_getElem hiL]
                rw [expectedHeader, if_neg (by omega), if_neg (by omega),
                  if_pos (by omega)]
                rfl
              · have hieq : i = pdvs.length + (dvs.length - 1) := by omega
                refine ⟨lastFragment dvs, ?_⟩
                rw [List.getElem?_append_right (by rw [hlenABC]; omega)]
                have : i - ((pdvs.dropLast.map
                    (fun f =>
                      [(⟨id2, 1 :: f⟩ : PresentationDataValueItem)]) ++
                    [[(⟨id2, 3 :: lastFragment pdvs⟩ :
                        PresentationDataValueItem)]]) ++
                    dvs.dropLast.map
                      (fun f =>
                        [(⟨id2, 0 :: f⟩ :
                            PresentationDataValueItem)])).length = 0 := by
                  rw [hlenABC]; omega
                rw [this]
                rw [expectedHeader, if_neg (by omega), if_neg (by omega),
                  if_neg (by omega)]
                rfl

theorem C6_encode_structure_witness :
    ∃ ncmd ndata,
      ([[(⟨1, [3, 7]⟩ : PresentationDataValueItem)],
        [(⟨1, [0, 9, 9]⟩ : PresentationDataValueItem)],
        [(⟨1, [2, 9]⟩ : PresentationDataValueItem)]] :
          List PDataTfPDU).length = ncmd + ndata ∧ 0 < ncmd ∧
      (0 < ndata ↔
        ({ variant := Variant.base
           command_set := []
           data_set := [9, 9, 9]
           encoded_command_set := []
           encoded_data_set := []
           id_ := none } : DIMSEMessage).data_set ≠ []) ∧
      ∀ i, i < ncmd + ndata →
        ∃ v, ([[(⟨1, [3, 7]⟩ : PresentationDataValueItem)],
          [(⟨1, [0, 9, 9]⟩ : PresentationDataValueItem)],
          [(⟨1, [2, 9]⟩ : PresentationDataValueItem)]] :
            List PDataTfPDU)[i]? =
          some [⟨1, expectedHeader ncmd ndata i :: v⟩] :=
  C6_encode_structure (constCodec [7] []) 
    { variant := Variant.base
      command_set := []
      data_set := [9, 9, 9]
      encoded_command_set := []
      encoded_data_set := []
      id_ := none } 1 8 _ rfl

/-! ## C8/C9: decode error behaviour -/

/-- `decode` raises `DIMSEProcessingError` only for an illegal control
header, and a PDV list whose headers are all legal can never produce it
(though it can produce `KeyError` or `IndexError`). -/
theorem decodeItems_dimse_error_iff (c : DsCodec) :
    ∀ (p : List PresentationDataValueItem) (st : DIMSEMessage),
      (decodeItems c st p = .error .dimse_processing_error →
        ∃ pdv ∈ p, headerOk pdv = false) ∧
      ((∀ pdv ∈ p, headerOk pdv = true) →
        decodeItems c st p ≠ .error .dimse_processing_error) := by
  intro p
  induction p with
  | nil =>
    intro st
    constructor
    · intro h; cases h
    · intro _ h; cases h
  | cons item rest ih =>
    intro st
    constructor
    · intro h
      rw [decodeItems] at h
      cases hdv : item.data_value with
      | nil =>
        rw [hdv] at h
        exact absurd (Except.error.inj h) (by decide)
      | cons b payload =>
        rw [hdv] at h
        dsimp only at h
        by_cases h1 : sMarker b = 1 ∨ sMarker b = 3
        · rw [if_pos h1] at h
          by_cases h2 : sMarker b = 3
          · rw [if_pos h2] at h
            split at h
            · exact absurd (Except.error.inj h) (by decide)
            · split at h
              · exact absurd (Except.error.inj h) (by decide)
              · split at h
                · exact absurd (Except.error.inj h) (by decide)
                · split at h
                  · cases h
                  · obtain ⟨pdv, hmem, hbad⟩ := (ih _).1 h
                    exact ⟨pdv, List.mem_cons_of_mem _ hmem, hbad⟩
          · rw [if_neg h2] at h
            obtain ⟨pdv, hmem, hbad⟩ := (ih _).1 h
            exact ⟨pdv, List.mem_cons_of_mem _ hmem, hbad⟩
        · rw [if_neg h1] at h
          by_cases h3 : sMarker b = 0 ∨ sMarker b = 2
          · rw [if_pos h3] at h
            by_cases h4 : sMarker b = 2
            · rw [if_pos h4] at h
              cases h
            · rw [if_neg h4] at h
              obtain ⟨pdv, hmem, hbad⟩ := (ih _).1 h
              exact ⟨pdv, List.mem_cons_of_mem _ hmem, hbad⟩
          · refine ⟨item, List.mem_cons_self _ _, ?_⟩
            rw [headerOk, hdv]
            simp only [Bool.or_eq_false_iff, decide_eq_false_iff_not]
            push_neg at h1 h3
            exact ⟨⟨⟨h3.1, h1.1⟩, h3.2⟩, h1.2⟩
    · intro hall h
      rw [decodeItems] at h
      cases hdv : item.data_value with
      | nil =>
        rw [hdv] at h
        exact absurd (Except.error.inj h) (by decide)
      | cons b payload =>
        rw [hdv] at h
        dsimp only at h
        have hgood := hall item (List.mem_cons_self _ _)
        rw [headerOk, hdv] at hgood
        simp only [Bool.or_eq_true, decide_eq_true_eq] at hgood
        by_cases h1 : sMarker b = 1 ∨ sMarker b = 3
        · rw [if_pos h1] at h
          by_cases h2 : sMarker b = 3
          · rw [if_pos h2] at h
            split at h
            · exact absurd (Except.error.inj h) (by decide)
            · split at h
              · exact absurd (Except.error.inj h) (by decide)
              · split at h
                · exact absurd (Except.error.inj h) (by decide)
                · split at h
                  · cases h
                  · exact (ih _).2
                      (fun pdv hm => hall pdv (List.mem_cons_of_mem _ hm)) h
          · rw [if_neg h2] at h
            exact (ih _).2
              (fun pdv hm => hall pdv (List.mem_cons_of_mem _ hm)) h
        · rw [if_neg h1] at h
          by_cases h3 : sMarker b = 0 ∨ sMarker b = 2
          · rw [if_pos h3] at h
            by_cases h4 : sMarker b = 2
            · rw [if_pos h4] at h
              cases h
            · rw [if_neg h4] at h
              exact (ih _).2
                (fun pdv hm => hall pdv (List.mem_cons_of_mem _ hm)) h
          · rcases hgood with ((h0 | h1') | h2') | h3' <;> tauto

/-- C8 counterexample: a PDV with the legal control header 3 whose command
bytes decode to a command set with no `CommandField` element makes `decode`
raise `KeyError` — a legal-header PDV does not always "return True or False
without raising". -/
theorem C8_counterexample :
    headerOk ⟨1, 3 :: encDsIVRLE csNoCommandField⟩ = true ∧
    DIMSEMessage.decode ivrleCodec freshReceiver
      [⟨1, 3 :: encDsIVRLE csNoCommandField⟩] =
      .error DIMSEError.key_error ∧
    DIMSEError.key_error ≠ DIMSEError.dimse_processing_error :=
  ⟨rfl, rfl, by decide⟩

/-- C8 (amended): `decode` raises `ProtocolError` (`DIMSEProcessingError`)
only on encountering a PDV whose message-control header is not in
`{0, 1, 2, 3}`, and a P-DATA-TF PDU all of whose PDVs carry legal headers
never produces `ProtocolError`; it may however still raise `KeyError` (for
an unknown or missing command-field opcode) or `IndexError` (for an empty
PDV), rather than always returning `True`/`False`. -/
theorem C8_decode_protocol_error (c : DsCodec) (st : DIMSEMessage)
    (p : PDataTfPDU) :
    (DIMSEMessage.decode c st p = .error .dimse_processing_error →
      ∃ pdv ∈ p, headerOk pdv = false) ∧
    ((∀ pdv ∈ p, headerOk pdv = true) →
      DIMSEMessage.decode c st p ≠ .error .dimse_processing_error) :=
  decodeItems_dimse_error_iff c p st

theorem C8_decode_protocol_error_witness :
    (∃ pdv ∈ ([⟨1, [5]⟩] : PDataTfPDU), headerOk pdv = false) ∧
    DIMSEMessage.decode ivrleCodec freshReceiver [⟨1, [1, 9]⟩] ≠
      .error .dimse_processing_error :=
  ⟨(C8_decode_protocol_error ivrleCodec freshReceiver [⟨1, [5]⟩]).1 rfl,
   (C8_decode_protocol_error ivrleCodec freshReceiver [⟨1, [1, 9]⟩]).2
     (by decide)⟩

/-- C9 counterexample: a last-command-fragment PDV whose command set carries
the unknown opcode `0x0002` makes `decode` raise `KeyError` (a plain Python
dictionary lookup failure), not `ProtocolError`. -/
theorem C9_counterexample :
    DIMSEMessage.decode ivrleCodec freshReceiver
      [⟨1, 3 :: encDsIVRLE csUnknownOpcode⟩] =
      .error DIMSEError.key_error ∧
    DIMSEError.key_error ≠ DIMSEError.dimse_processing_error :=
  ⟨rfl, by decide⟩

/-- C9 (amended): when `decode` processes a last-command-fragment PDV whose
reassembled command set has a `CommandField` opcode outside the
`MESSAGE_TYPE` catalog, it fails with `KeyError` (the uncaught dictionary
lookup), not with `ProtocolError`. -/
theorem C9_unknown_opcode_key_error (c : DsCodec) (st : DIMSEMessage)
    (id2 : Nat) (f : List Nat) (o : Nat)
    (hcf : dsGet (c.dec (st.encoded_command_set.flatten ++ f)) (0, 0x0100) =
      some (.vNum o))
    (hcat : MESSAGE_TYPE o = none) :
    DIMSEMessage.decode c st [⟨id2, 3 :: f⟩] =
      .error DIMSEError.key_error := by
  rw [DIMSEMessage.decode, decodeItems]
  simp only [sMarker]
  norm_num
  rw [hcf]
  dsimp only [MESSAGE_TYPEv]
  rw [hcat]

theorem C9_unknown_opcode_key_error_witness :
    DIMSEMessage.decode ivrleCodec freshReceiver
      [⟨1, 3 :: encDsIVRLE csUnknownOpcode⟩] =
      .error DIMSEError.key_error :=
  C9_unknown_opcode_key_error ivrleCodec freshReceiver 1
    (encDsIVRLE csUnknownOpcode) 2 rfl rfl

/-! ## C1: encode/decode round trip -/

/-- C1: the round trip is broken by the `command_field = 0x0101` slip.  A
C-STORE-RSP built by `from_params` (non-empty encoded command set,
`max_pdu_length = 16384 ≥ 16`) is encoded to PDUs which, fed to a fresh
receiver, make `decode` raise `KeyError` at `MESSAGE_TYPE[0x0101]`: `decode`
never returns *complete* and the message is not reproduced. -/
theorem C1_cstore_rsp_round_trip_fails :
    ivrleCodec.enc
      (CStoreRSPMessage.from_params ivrleCodec pStore0).command_set ≠ [] ∧
    (DIMSEMessage.encode ivrleCodec
      (CStoreRSPMessage.from_params ivrleCodec pStore0) 1 16384).map
      (fun pdus => feedAll ivrleCodec freshReceiver pdus) =
    some (Except.error DIMSEError.key_error) :=
  ⟨by decide, rfl⟩
